import Mathlib

/-! Kick (Daisy Seed drum voice): sequencer, mixer chain and control-rate scheduling.

A shallow embedding of `seed/Kick/Kick.cpp`.

* C++ `int` values are `Int`; `++`/`--` go through `wrapInt` (32-bit two's
  complement) and `%` is the remainder of truncated division (`cRem`).  The
  theorems are stated for constants that fit an `int`, and then no increment
  leaves the `int` range.
* C++ arrays are lists.  An access outside the array is undefined behaviour in
  C++; here it makes the enclosing function return `none`.
* The DaisySP / libDaisy objects (`Oscillator`, `AdEnv`, `Svf`, `Metro`,
  `Switch`) and the `float` arithmetic are black boxes: their state types and
  operations are the fields of `Dsp`, over which every definition is generic.
* `Parameter::Process()` samples a control; the value it produces is an input
  of the callback (`CallbackIn.fresh`), as are the pin levels read by
  `Switch::Debounce()`.
-/

namespace Kick

/-! ## Machine integers and arrays -/

/-- Wrap an integer into the range of a 32-bit two's complement `int`. -/
def wrapInt (x : Int) : Int := (x + 2147483648) % 4294967296 - 2147483648

/-- The C++ `%` operator on `int`: remainder of division truncated toward zero. -/
def cRem (a b : Int) : Int := Int.tmod a b

/-- Largest value of a C++ `int`. -/
def INT_MAX : Int := 2147483647

/-- Read `a[i]` for an `int` index; `none` when the index is outside the array. -/
def readAt {α : Type} (a : List α) (i : Int) : Option α :=
  if i < 0 then none else a[i.toNat]?

/-- Write `a[i] = v` for an `int` index; `none` when the index is outside the array. -/
def writeAt {α : Type} (a : List α) (i : Int) (v : α) : Option (List α) :=
  if i < 0 then none
  else if i.toNat < a.length then some (a.set i.toNat v) else none

/-- Call a mutating method on `a[i]` for an `int` index. -/
def modifyAt {α : Type} (a : List α) (i : Int) (f : α → α) : Option (List α) :=
  (readAt a i).bind (fun x => writeAt a i (f x))

/-- Write `a[i] = v` for an unsigned index. -/
def writeIdx {α : Type} (a : List α) (i : Nat) (v : α) : Option (List α) :=
  if i < a.length then some (a.set i v) else none

/-- Counted loop `for (i = 0; i < n; i++) body`: runs `body` at `0, 1, ..., n-1`
in this order, threading the state; stops with `none` as soon as a body does. -/
def forLoop {σ : Type} (body : σ → Nat → Option σ) : Nat → σ → Option σ
  | 0, s => some s
  | n + 1, s => (forLoop body n s).bind (fun t => body t n)

/-! ## Configuration constants -/

/-- The `const int` configuration constants of the program. -/
structure Config where
  VOICE_COUNT : Int
  MIXER_CHANNEL : Int
  UPDATE_RATE : Int
  deriving DecidableEq

/-- The constants as they are in the source. -/
def shipped : Config := { VOICE_COUNT := 8, MIXER_CHANNEL := 1, UPDATE_RATE := 1 }

/-- Constant `const int AUDIO_BLOCK_SIZE = 1`. -/
def AUDIO_BLOCK_SIZE : Int := 1

/-- Constant `const bool LOGGING = false`. -/
def LOGGING : Bool := false

/-- Constant `const int LOG_RATE = 48000 / 8 / AUDIO_BLOCK_SIZE`. -/
def LOG_RATE : Int := Int.tdiv (Int.tdiv 48000 8) AUDIO_BLOCK_SIZE

/-- Every constant is a positive `int`. -/
def Config.Valid (cfg : Config) : Prop :=
  1 ≤ cfg.VOICE_COUNT ∧ cfg.VOICE_COUNT ≤ INT_MAX ∧
  1 ≤ cfg.MIXER_CHANNEL ∧ cfg.MIXER_CHANNEL ≤ INT_MAX ∧
  1 ≤ cfg.UPDATE_RATE ∧ cfg.UPDATE_RATE ≤ INT_MAX

instance (cfg : Config) : Decidable cfg.Valid := by
  unfold Config.Valid; infer_instance

/-! ## Black-box primitives -/

/-- The operations of the external collaborators: `float` arithmetic (`F`),
`Oscillator` (`O`), `AdEnv` (`E`), `Svf` (`V`), `Metro` (`C`), `Switch` (`B`). -/
structure Dsp (F O E V C B : Type) where
  /-- the literal `0` -/
  fzero : F
  /-- addition of `float` -/
  fadd : F → F → F
  /-- multiplication of `float` -/
  fmul : F → F → F
  /-- conversion `int` to `float` -/
  ofInt : Int → F
  /-- conversion `float` to `int` -/
  toInt : F → Int
  /-- the function `tanh` -/
  tanh : F → F
  /-- the function `mtof` -/
  mtof : F → F
  /-- method `Oscillator::Reset` -/
  oscReset : O → O
  /-- method `Oscillator::SetFreq` -/
  oscSetFreq : O → F → O
  /-- method `Oscillator::SetAmp` -/
  oscSetAmp : O → F → O
  /-- method `Oscillator::Process` -/
  oscProcess : O → O × F
  /-- method `AdEnv::Trigger` -/
  envTrigger : E → E
  /-- method `AdEnv::SetTime(ADENV_SEG_DECAY, _)` -/
  envSetDecay : E → F → E
  /-- method `AdEnv::SetCurve` -/
  envSetCurve : E → F → E
  /-- method `AdEnv::SetMax` -/
  envSetMax : E → F → E
  /-- method `AdEnv::Process` -/
  envProcess : E → E × F
  /-- method `Svf::SetFreq` -/
  svfSetFreq : V → F → V
  /-- method `Svf::Process` -/
  svfProcess : V → F → V
  /-- method `Svf::Band` -/
  svfBand : V → F
  /-- method `Svf::High` -/
  svfHigh : V → F
  /-- method `Metro::Process`, with whether it ticked -/
  metroProcess : C → C × Bool
  /-- method `Metro::SetFreq` -/
  metroSetFreq : C → F → C
  /-- method `Switch::Debounce`, given the pin level it reads -/
  swDebounce : B → Bool → B
  /-- method `Switch::RisingEdge` -/
  swRisingEdge : B → Bool

/-! ## Program state -/

/-- The values held by the thirteen `Parameter` objects. -/
structure Parameters (F : Type) where
  clock_speed : F
  decay : F
  osc_freq : F
  osc_amp : F
  amp_curve : F
  pitch_decay : F
  pitch_curve : F
  pitch_mod_depth : F
  mx_h_amp : F
  mx_m_freq : F
  mx_m_amp : F
  mx_l_amp : F
  mx_gain : F

/-- The global variables of the program. -/
structure State (F O E V C B : Type) where
  current_voice : Int
  clock : C
  osc : List O
  env : List E
  pitch_env : List E
  hp : V
  mx_h : List V
  mx_m : List V
  mx_l : List V
  current_mx : Int
  mx_h_amp_val : List Int
  mx_m_freq_val : List Int
  mx_m_amp_val : List Int
  mx_l_amp_val : List Int
  mx_gain_val : List Int
  button1 : B
  button2 : B
  button3 : B
  update_step : Int
  params : Parameters F
  log_step : Int

/-- What one invocation of the callback receives from outside. -/
structure CallbackIn (F : Type) where
  /-- the values the thirteen `Parameter::Process()` calls produce -/
  fresh : Parameters F
  /-- pin level read by `button1.Debounce()` -/
  pin1 : Bool
  /-- pin level read by `button2.Debounce()` -/
  pin2 : Bool
  /-- pin level read by `button3.Debounce()` -/
  pin3 : Bool
  /-- the output buffer on entry -/
  out : List F
  /-- the `size` argument -/
  size : Nat

variable {F O E V C B : Type}

/-! ## The functions of `Kick.cpp` -/

/-- Function `UpdateDigitalControls` (lines 250-256). -/
def UpdateDigitalControls (P : Dsp F O E V C B) (s : State F O E V C B)
    (inp : CallbackIn F) : State F O E V C B :=
  { s with
    button1 := P.swDebounce s.button1 inp.pin1
    button2 := P.swDebounce s.button2 inp.pin2
    button3 := P.swDebounce s.button3 inp.pin3 }

/-- Function `UpdateParameters` (lines 258-273): every parameter takes its
fresh value. -/
def UpdateParameters (s : State F O E V C B) (inp : CallbackIn F) :
    State F O E V C B :=
  { s with params := inp.fresh }

/-- Function `UpdateMixerParameters` (lines 331-338): the `float` parameter
values are assigned to the `int` array elements at `current_mx`. -/
def UpdateMixerParameters (P : Dsp F O E V C B) (s : State F O E V C B) :
    Option (State F O E V C B) := do
  let a ← writeAt s.mx_h_amp_val s.current_mx (P.toInt s.params.mx_h_amp)
  let b ← writeAt s.mx_m_freq_val s.current_mx (P.toInt s.params.mx_m_freq)
  let c ← writeAt s.mx_m_amp_val s.current_mx (P.toInt s.params.mx_m_amp)
  let d ← writeAt s.mx_l_amp_val s.current_mx (P.toInt s.params.mx_l_amp)
  let e ← writeAt s.mx_gain_val s.current_mx (P.toInt s.params.mx_gain)
  pure { s with
    mx_h_amp_val := a, mx_m_freq_val := b, mx_m_amp_val := c,
    mx_l_amp_val := d, mx_gain_val := e }

/-- One iteration of the loop of `SetEnvelopeParameters` (lines 279-284). -/
def SetEnvelopeParametersBody (P : Dsp F O E V C B) (s : State F O E V C B)
    (i : Nat) : Option (State F O E V C B) := do
  let e ← s.env[i]?
  let e := P.envSetDecay e s.params.decay
  let e := P.envSetCurve e s.params.amp_curve
  let p ← s.pitch_env[i]?
  let p := P.envSetDecay p s.params.pitch_decay
  let p := P.envSetCurve p s.params.pitch_curve
  let p := P.envSetMax p s.params.pitch_mod_depth
  pure { s with env := s.env.set i e, pitch_env := s.pitch_env.set i p }

/-- Function `SetEnvelopeParameters` (lines 275-286). -/
def SetEnvelopeParameters (P : Dsp F O E V C B) (cfg : Config)
    (s : State F O E V C B) : Option (State F O E V C B) :=
  forLoop (SetEnvelopeParametersBody P) cfg.VOICE_COUNT.toNat s

/-- Function `AdvanceSequencer` (lines 288-298). -/
def AdvanceSequencer (P : Dsp F O E V C B) (cfg : Config)
    (s : State F O E V C B) : Option (State F O E V C B) :=
  let r := P.metroProcess s.clock
  if r.2 then do
    let o ← modifyAt s.osc s.current_voice P.oscReset
    let e ← modifyAt s.env s.current_voice P.envTrigger
    let p ← modifyAt s.pitch_env s.current_voice P.envTrigger
    pure { s with
      clock := r.1, osc := o, env := e, pitch_env := p
      current_voice := cRem (wrapInt (s.current_voice + 1)) cfg.VOICE_COUNT }
  else
    some { s with clock := r.1 }

/-- One iteration of the loop of `NextSamples` (lines 304-306), on the state and `sig`. -/
def NextSamplesBody (P : Dsp F O E V C B)
    (x : State F O E V C B × F) (i : Nat) : Option (State F O E V C B × F) := do
  let s := x.1
  let p ← s.pitch_env[i]?
  let pr := P.envProcess p
  let o ← s.osc[i]?
  let o := P.oscSetFreq o (P.fadd (P.mtof s.params.osc_freq) pr.2)
  let e ← s.env[i]?
  let er := P.envProcess e
  let o := P.oscSetAmp o (P.fmul er.2 s.params.osc_amp)
  let r := P.oscProcess o
  pure ({ s with
          pitch_env := s.pitch_env.set i pr.1, env := s.env.set i er.1
          osc := s.osc.set i r.1 },
        P.fadd x.2 r.2)

/-- Function `NextSamples` (lines 300-308): adds every voice's sample onto `sig`. -/
def NextSamples (P : Dsp F O E V C B) (cfg : Config)
    (s : State F O E V C B) (sig : F) : Option (State F O E V C B × F) :=
  forLoop (NextSamplesBody P) cfg.VOICE_COUNT.toNat (s, sig)

/-- One iteration of the loop of `Mixer` (lines 314-327), on the state and `sig`. -/
def MixerBody (P : Dsp F O E V C B)
    (x : State F O E V C B × F) (i : Nat) : Option (State F O E V C B × F) := do
  let s := x.1
  let g ← s.mx_gain_val[i]?
  let sig := P.fmul x.2 (P.ofInt g)
  let fh ← s.mx_h[i]?
  let fh := P.svfProcess fh sig
  let h := P.svfBand fh
  let mf ← s.mx_m_freq_val[i]?
  let fm ← s.mx_m[i]?
  let fm := P.svfProcess (P.svfSetFreq fm (P.ofInt mf)) sig
  let m := P.svfBand fm
  let fl ← s.mx_l[i]?
  let fl := P.svfProcess fl sig
  let l := P.svfBand fl
  let ha ← s.mx_h_amp_val[i]?
  let ma ← s.mx_m_amp_val[i]?
  let la ← s.mx_l_amp_val[i]?
  let sig := P.fadd (P.fadd (P.fmul (P.ofInt ha) h) (P.fmul (P.ofInt ma) m))
                    (P.fmul (P.ofInt la) l)
  pure ({ s with mx_h := s.mx_h.set i fh, mx_m := s.mx_m.set i fm
                 mx_l := s.mx_l.set i fl },
        P.tanh sig)

/-- Function `Mixer` (lines 310-329). -/
def Mixer (P : Dsp F O E V C B) (cfg : Config)
    (s : State F O E V C B) (sig : F) : Option (State F O E V C B × F) :=
  forLoop (MixerBody P) cfg.MIXER_CHANNEL.toNat (s, sig)

/-- Function `OutputLog` (lines 340-356) prints a line and changes no variable. -/
def OutputLog (s : State F O E V C B) : State F O E V C B := s

/-- Lines 68-73 of `AudioCallback`: optional logging and the log counter. -/
def logStep (s : State F O E V C B) : State F O E V C B :=
  let s := if LOGGING && s.log_step == 0 then OutputLog s else s
  { s with log_step := cRem (wrapInt (s.log_step + 1)) LOG_RATE }

/-- The control-rate tick, lines 78-80 of `AudioCallback`. -/
def controlTick (P : Dsp F O E V C B) (s : State F O E V C B)
    (inp : CallbackIn F) : Option (State F O E V C B) := do
  let s := UpdateParameters s inp
  let s ← UpdateMixerParameters P s
  pure (UpdateDigitalControls P s inp)

/-- Lines 85-94 of `AudioCallback`: the update of `current_mx`, given what
`button2.RisingEdge()` and `button3.RisingEdge()` return. -/
def selectorUpdate (cfg : Config) (current_mx : Int) (fwd bwd : Bool) : Int :=
  let m := if fwd then cRem (wrapInt (current_mx + 1)) cfg.MIXER_CHANNEL
           else current_mx
  if decide (m > 0) && bwd then wrapInt (m - 1) else m

/-- The state and `sig` carried through the frame loop, with the output buffer. -/
structure FrameSt (F O E V C B : Type) where
  st : State F O E V C B
  sig : F
  out : List F

/-- One iteration of the frame loop (lines 104-111), where `i = 2 * j`. -/
def frameBody (P : Dsp F O E V C B) (cfg : Config)
    (x : FrameSt F O E V C B) (j : Nat) : Option (FrameSt F O E V C B) := do
  let r ← NextSamples P cfg x.st x.sig
  let r ← Mixer P cfg r.1 r.2
  let s := { r.1 with hp := P.svfProcess r.1.hp r.2 }
  let sig := P.svfHigh s.hp
  let out ← writeIdx x.out (2 * j) sig
  let out ← writeIdx out (2 * j + 1) sig
  pure { st := s, sig := sig, out := out }

/-- Number of iterations of `for (i = 0; i < size; i += 2)`. -/
def frameCount (size : Nat) : Nat := (size + 1) / 2

/-- Lines 82-99 of `AudioCallback`: from the step counter to `clock.SetFreq`. -/
def beforeFrames (P : Dsp F O E V C B) (cfg : Config) (s : State F O E V C B) :
    Option (State F O E V C B) := do
  let s := { s with update_step := cRem (wrapInt (s.update_step + 1)) cfg.UPDATE_RATE }
  let s := { s with
    current_mx := selectorUpdate cfg s.current_mx
      (P.swRisingEdge s.button2) (P.swRisingEdge s.button3) }
  let s ← AdvanceSequencer P cfg s
  let s ← SetEnvelopeParameters P cfg s
  pure { s with clock := P.metroSetFreq s.clock s.params.clock_speed }

/-- Lines 82-112 of `AudioCallback`: everything after the control-rate tick;
`sig = 0` is set once, before the frame loop. -/
def afterTick (P : Dsp F O E V C B) (cfg : Config) (s : State F O E V C B)
    (inp : CallbackIn F) : Option (State F O E V C B × List F) := do
  let s ← beforeFrames P cfg s
  let r ← forLoop (frameBody P cfg) (frameCount inp.size)
            { st := s, sig := P.fzero, out := inp.out }
  pure (r.st, r.out)

/-- Function `AudioCallback` (lines 62-113): the new state and the output buffer. -/
def AudioCallback (P : Dsp F O E V C B) (cfg : Config) (s : State F O E V C B)
    (inp : CallbackIn F) : Option (State F O E V C B × List F) := do
  let s := logStep s
  let s ← if s.update_step = 0 then controlTick P s inp else pure s
  afterTick P cfg s inp

/-! ## A concrete instance of the primitives

Samples are rationals (every finite `float` is one); the conversion to `int`
truncates toward zero as in C++.  The signal objects are simple stand-ins with
the interface of the library classes: they are used to run the program on
concrete inputs. -/

/-- C++ conversion of a floating value to `int`: truncation toward zero. -/
def truncToInt (q : ℚ) : Int := Int.tdiv q.num q.den

/-- Stand-in saturator: odd, increasing, of magnitude below one. -/
def softSat (x : ℚ) : ℚ := x / (1 + |x|)

/-- Stand-in oscillator: remembers frequency and amplitude, counts samples
since the last reset, and outputs its amplitude. -/
structure SimOsc where
  freq : ℚ
  amp : ℚ
  phase : Nat
  deriving DecidableEq

/-- Stand-in envelope: a level that is set to one by a trigger and halves at
every sample. -/
structure SimEnv where
  level : ℚ
  decay : ℚ
  curve : ℚ
  max : ℚ
  deriving DecidableEq

/-- Stand-in filter: every output is the last input. -/
structure SimSvf where
  freq : ℚ
  last : ℚ
  deriving DecidableEq

/-- The concrete primitives: the metronome is a script of ticks, the switch is
the eight-bit shift register of pin levels whose rising edge is `0x7f`. -/
def simDsp : Dsp ℚ SimOsc SimEnv SimSvf (List Bool) Nat where
  fzero := 0
  fadd := fun a b => a + b
  fmul := fun a b => a * b
  ofInt := fun i => (i : ℚ)
  toInt := truncToInt
  tanh := softSat
  mtof := fun x => x
  oscReset := fun o => { o with phase := 0 }
  oscSetFreq := fun o f => { o with freq := f }
  oscSetAmp := fun o a => { o with amp := a }
  oscProcess := fun o => ({ o with phase := o.phase + 1 }, o.amp)
  envTrigger := fun e => { e with level := 1 }
  envSetDecay := fun e t => { e with decay := t }
  envSetCurve := fun e c => { e with curve := c }
  envSetMax := fun e m => { e with max := m }
  envProcess := fun e => ({ e with level := e.level / 2 }, e.level)
  svfSetFreq := fun v f => { v with freq := f }
  svfProcess := fun v x => { v with last := x }
  svfBand := fun v => v.last
  svfHigh := fun v => v.last
  metroProcess := fun c => (c.tail, c.headD false)
  metroSetFreq := fun c _ => c
  swDebounce := fun b pin => (2 * b + (if pin then 1 else 0)) % 256
  swRisingEdge := fun b => b == 127

/-- A parameter bank: every parameter is `1`, except the mixer gain and the
mid frequency, which are given. -/
def simParams (gain freq : ℚ) : Parameters ℚ where
  clock_speed := 1
  decay := 1
  osc_freq := 1
  osc_amp := 1
  amp_curve := 1
  pitch_decay := 1
  pitch_curve := 1
  pitch_mod_depth := 1
  mx_h_amp := 1
  mx_m_freq := freq
  mx_m_amp := 1
  mx_l_amp := 1
  mx_gain := gain

/-- A state as `main` sets it up: counters at zero, `n` voices, three filters
per band, `m` mixer stages at their initial values `1, 1000, 1, 1, 1`; the
metronome follows the script `ticks`. -/
def simState (n m : Nat) (ticks : List Bool) :
    State ℚ SimOsc SimEnv SimSvf (List Bool) Nat where
  current_voice := 0
  clock := ticks
  osc := List.replicate n { freq := 1000, amp := 1, phase := 0 }
  env := List.replicate n { level := 0, decay := 2 / 5, curve := 0, max := 1 }
  pitch_env := List.replicate n { level := 0, decay := 2 / 5, curve := 0, max := 1000 }
  hp := { freq := 10, last := 0 }
  mx_h := List.replicate 3 { freq := 12000, last := 0 }
  mx_m := List.replicate 3 { freq := 1000, last := 0 }
  mx_l := List.replicate 3 { freq := 80, last := 0 }
  current_mx := 0
  mx_h_amp_val := List.replicate m 1
  mx_m_freq_val := List.replicate m 1000
  mx_m_amp_val := List.replicate m 1
  mx_l_amp_val := List.replicate m 1
  mx_gain_val := List.replicate m 1
  button1 := 0
  button2 := 0
  button3 := 0
  update_step := 0
  params := simParams 1 1000
  log_step := 0

/-- A callback input: fresh mixer gain and mid frequency as given (the other
parameters `1`), the pin levels of buttons 2 and 3, a zeroed buffer of `size`
samples. -/
def simIn (gain freq : ℚ) (pin2 pin3 : Bool) (size : Nat) : CallbackIn ℚ where
  fresh := simParams gain freq
  pin1 := false
  pin2 := pin2
  pin3 := pin3
  out := List.replicate size 0
  size := size

/-- The shipped constants with two mixer stages. -/
def twoStage : Config := { VOICE_COUNT := 8, MIXER_CHANNEL := 2, UPDATE_RATE := 1 }

/-- The shipped constants with a control tick every third callback. -/
def everyThird : Config := { VOICE_COUNT := 8, MIXER_CHANNEL := 1, UPDATE_RATE := 3 }

/-- Two stages, selector at `0`, `update_step = 0`, and button 2 one low-to-high
sample short of its rising edge. -/
def edgeState : State ℚ SimOsc SimEnv SimSvf (List Bool) Nat :=
  { simState 8 2 [] with button2 := 63 }

/-- Two stages, selector at `0`, `update_step = 0`; button 2 is one pressed
sample short of its rising edge and button 3 two pressed samples short. -/
def pagingState : State ℚ SimOsc SimEnv SimSvf (List Bool) Nat :=
  { simState 8 2 [] with button2 := 63, button3 := 31 }

/-- Two stages with stage 1 selected. -/
def secondSelected : State ℚ SimOsc SimEnv SimSvf (List Bool) Nat :=
  { simState 8 2 [] with current_mx := 1 }

/-- One stage, the parameter bank holding mixer gain `1/2` and mid frequency
`881/2`. -/
def halfGainState : State ℚ SimOsc SimEnv SimSvf (List Bool) Nat :=
  { simState 8 1 [] with params := simParams (1 / 2) (881 / 2) }

/-! ## Runs of the sequencer -/

/-- The voice lists have `VOICE_COUNT` entries and `current_voice` indexes them. -/
def SeqOK (cfg : Config) (s : State F O E V C B) : Prop :=
  0 ≤ s.current_voice ∧ s.current_voice < cfg.VOICE_COUNT ∧
  s.osc.length = cfg.VOICE_COUNT.toNat ∧
  s.env.length = cfg.VOICE_COUNT.toNat ∧
  s.pitch_env.length = cfg.VOICE_COUNT.toNat

instance (cfg : Config) (s : State F O E V C B) : Decidable (SeqOK cfg s) := by
  unfold SeqOK; infer_instance

/-- Run of `n` successive invocations of `AdvanceSequencer`. -/
def runSequencer (P : Dsp F O E V C B) (cfg : Config) :
    Nat → State F O E V C B → Option (State F O E V C B)
  | 0, s => some s
  | n + 1, s => (AdvanceSequencer P cfg s).bind (runSequencer P cfg n)

/-- On how many of `n` successive `clock.Process()` calls the metronome ticks. -/
def fireCount (P : Dsp F O E V C B) : Nat → C → Nat
  | 0, _ => 0
  | n + 1, c => (if (P.metroProcess c).2 then 1 else 0) + fireCount P n (P.metroProcess c).1

/-- The voice whose `Reset`/`Trigger` methods one invocation of
`AdvanceSequencer` calls, if any: the index used on lines 292-294. -/
def firedVoice (P : Dsp F O E V C B) (s : State F O E V C B) : Option Int :=
  if (P.metroProcess s.clock).2 then some s.current_voice else none

/-- The voices triggered by `n` successive invocations, in order. -/
def triggeredVoices (P : Dsp F O E V C B) (cfg : Config) :
    Nat → State F O E V C B → Option (List Int)
  | 0, _ => some []
  | n + 1, s =>
    (AdvanceSequencer P cfg s).bind fun t =>
      (triggeredVoices P cfg n t).map fun l => (firedVoice P s).toList ++ l

/-! ## Runs of the callback and observations on it -/

/-- The mixer arrays hold `MIXER_CHANNEL` stages (the filter arrays at least
as many) and `current_mx` indexes them. -/
def MixOK (cfg : Config) (s : State F O E V C B) : Prop :=
  0 ≤ s.current_mx ∧ s.current_mx < cfg.MIXER_CHANNEL ∧
  cfg.MIXER_CHANNEL.toNat ≤ s.mx_h.length ∧
  cfg.MIXER_CHANNEL.toNat ≤ s.mx_m.length ∧
  cfg.MIXER_CHANNEL.toNat ≤ s.mx_l.length ∧
  s.mx_h_amp_val.length = cfg.MIXER_CHANNEL.toNat ∧
  s.mx_m_freq_val.length = cfg.MIXER_CHANNEL.toNat ∧
  s.mx_m_amp_val.length = cfg.MIXER_CHANNEL.toNat ∧
  s.mx_l_amp_val.length = cfg.MIXER_CHANNEL.toNat ∧
  s.mx_gain_val.length = cfg.MIXER_CHANNEL.toNat

instance (cfg : Config) (s : State F O E V C B) : Decidable (MixOK cfg s) := by
  unfold MixOK; infer_instance

/-- The arrays have their declared sizes and the three counters are in range. -/
def StateOK (cfg : Config) (s : State F O E V C B) : Prop :=
  SeqOK cfg s ∧ MixOK cfg s ∧ 0 ≤ s.update_step ∧ s.update_step < cfg.UPDATE_RATE

instance (cfg : Config) (s : State F O E V C B) : Decidable (StateOK cfg s) := by
  unfold StateOK; infer_instance

/-- The callback's buffer holds `size` samples and `size` is even. -/
def InOK (inp : CallbackIn F) : Prop :=
  inp.size % 2 = 0 ∧ inp.size ≤ inp.out.length

instance (inp : CallbackIn F) : Decidable (InOK inp) := by
  unfold InOK; infer_instance

/-- Successive invocations of `AudioCallback`, one per input. -/
def runCallbacks (P : Dsp F O E V C B) (cfg : Config) :
    List (CallbackIn F) → State F O E V C B → Option (State F O E V C B)
  | [], s => some s
  | inp :: rest, s => (AudioCallback P cfg s inp).bind fun r => runCallbacks P cfg rest r.1

/-- Run of `n` successive calls of `UpdateMixerParameters`. -/
def repeatUpdateMixer (P : Dsp F O E V C B) :
    Nat → State F O E V C B → Option (State F O E V C B)
  | 0, s => some s
  | n + 1, s => (UpdateMixerParameters P s).bind (repeatUpdateMixer P n)

/-- The state in which `AudioCallback` enters its frame loop (line 101). -/
def entryState (P : Dsp F O E V C B) (cfg : Config) (s : State F O E V C B)
    (inp : CallbackIn F) : Option (State F O E V C B) := do
  let s := logStep s
  let s ← if s.update_step = 0 then controlTick P s inp else pure s
  beforeFrames P cfg s

/-- The value of `sig` that `Mixer` receives in frame `j` of a callback. -/
def mixerInputAt (P : Dsp F O E V C B) (cfg : Config) (s : State F O E V C B)
    (inp : CallbackIn F) (j : Nat) : Option F := do
  let e ← entryState P cfg s inp
  let x ← forLoop (frameBody P cfg) j { st := e, sig := P.fzero, out := inp.out }
  let r ← NextSamples P cfg x.st x.sig
  pure r.2

/-- The sum `0 + osc[0].Process() + ... + osc[N-1].Process()` of frame `j` of a
callback: what `NextSamples` yields in that frame when started from `0`. -/
def voiceSumAt (P : Dsp F O E V C B) (cfg : Config) (s : State F O E V C B)
    (inp : CallbackIn F) (j : Nat) : Option F := do
  let e ← entryState P cfg s inp
  let x ← forLoop (frameBody P cfg) j { st := e, sig := P.fzero, out := inp.out }
  let r ← NextSamples P cfg x.st P.fzero
  pure r.2

/-- The sample frame `j` of a callback writes to `out[2j]` and `out[2j+1]`. -/
def frameOutputAt (P : Dsp F O E V C B) (cfg : Config) (s : State F O E V C B)
    (inp : CallbackIn F) (j : Nat) : Option F := do
  let e ← entryState P cfg s inp
  let x ← forLoop (frameBody P cfg) (j + 1) { st := e, sig := P.fzero, out := inp.out }
  pure x.sig

/-- The stored parameters of stage `j`: gain, high-band amp, mid-band amp,
mid-band frequency, low-band amp. -/
def stageVals (s : State F O E V C B) (j : Nat) :
    Option Int × Option Int × Option Int × Option Int × Option Int :=
  (s.mx_gain_val[j]?, s.mx_h_amp_val[j]?, s.mx_m_amp_val[j]?, s.mx_m_freq_val[j]?,
   s.mx_l_amp_val[j]?)

/-- The five arrays of stored stage parameters. -/
def vals (s : State F O E V C B) :
    List Int × List Int × List Int × List Int × List Int :=
  (s.mx_h_amp_val, s.mx_m_freq_val, s.mx_m_amp_val, s.mx_l_amp_val, s.mx_gain_val)

/-- The part of the state outside the signal objects: the counters, the
stored stage parameters, the sizes of the object arrays, the parameter values
and the buttons. -/
def shape (s : State F O E V C B) :
    Int × Int × Int × (List Int × List Int × List Int × List Int × List Int)
      × (Nat × Nat × Nat × Nat × Nat × Nat) × Parameters F × B × B × B :=
  (s.current_voice, s.current_mx, s.update_step, vals s,
   (s.osc.length, s.env.length, s.pitch_env.length,
    s.mx_h.length, s.mx_m.length, s.mx_l.length),
   s.params, s.button1, s.button2, s.button3)

/-- The state with the three arrays of mixer filters replaced. -/
def withFilters (s : State F O E V C B) (h m l : List V) : State F O E V C B :=
  { s with mx_h := h, mx_m := m, mx_l := l }

/-- The five arrays of stored stage parameters after the assignments of
`UpdateMixerParameters` at index `a` from the parameter values `p`. -/
def writtenVals (P : Dsp F O E V C B) (s : State F O E V C B) (a : Nat)
    (p : Parameters F) : List Int × List Int × List Int × List Int × List Int :=
  (s.mx_h_amp_val.set a (P.toInt p.mx_h_amp), s.mx_m_freq_val.set a (P.toInt p.mx_m_freq),
   s.mx_m_amp_val.set a (P.toInt p.mx_m_amp), s.mx_l_amp_val.set a (P.toInt p.mx_l_amp),
   s.mx_gain_val.set a (P.toInt p.mx_gain))

/-- What `button2.RisingEdge()` returns on line 85 of a callback. -/
def forwardEdge (P : Dsp F O E V C B) (s : State F O E V C B)
    (inp : CallbackIn F) : Bool :=
  P.swRisingEdge (if s.update_step = 0 then P.swDebounce s.button2 inp.pin2 else s.button2)

/-- What `button3.RisingEdge()` returns on line 91 of a callback. -/
def backwardEdge (P : Dsp F O E V C B) (s : State F O E V C B)
    (inp : CallbackIn F) : Bool :=
  P.swRisingEdge (if s.update_step = 0 then P.swDebounce s.button3 inp.pin3 else s.button3)

/-! ## The stage chain as the specification words it -/

/-- One stage: its five stored parameters and its three filters. -/
structure Stage (V : Type) where
  gain : Int
  high_amp : Int
  mid_amp : Int
  mid_freq : Int
  low_amp : Int
  high : V
  mid : V
  low : V

/-- One stage on input `x`: scale by the gain, feed the scaled sample to the
high, mid and low filters (the mid filter's frequency set first), recombine the
three band outputs with the band amps, saturate. -/
def stageSpec (P : Dsp F O E V C B) (st : Stage V) (x : F) : Stage V × F :=
  let x' := P.fmul x (P.ofInt st.gain)
  let high := P.svfProcess st.high x'
  let mid := P.svfProcess (P.svfSetFreq st.mid (P.ofInt st.mid_freq)) x'
  let low := P.svfProcess st.low x'
  let y := P.fadd
    (P.fadd (P.fmul (P.ofInt st.high_amp) (P.svfBand high))
            (P.fmul (P.ofInt st.mid_amp) (P.svfBand mid)))
    (P.fmul (P.ofInt st.low_amp) (P.svfBand low))
  ({ st with high := high, mid := mid, low := low }, P.tanh y)

/-- The chain: the stages in order, each receiving the previous one's output. -/
def chainSpec (P : Dsp F O E V C B) : List (Stage V) → F → List (Stage V) × F
  | [], x => ([], x)
  | st :: rest, x =>
    ((stageSpec P st x).1 :: (chainSpec P rest (stageSpec P st x).2).1,
     (chainSpec P rest (stageSpec P st x).2).2)

/-- Stage `i` of a program state, gathered from the parallel arrays. -/
def stageAt (s : State F O E V C B) (i : Nat) : Option (Stage V) := do
  let g ← s.mx_gain_val[i]?
  let ha ← s.mx_h_amp_val[i]?
  let ma ← s.mx_m_amp_val[i]?
  let mf ← s.mx_m_freq_val[i]?
  let la ← s.mx_l_amp_val[i]?
  let h ← s.mx_h[i]?
  let m ← s.mx_m[i]?
  let l ← s.mx_l[i]?
  pure { gain := g, high_amp := ha, mid_amp := ma, mid_freq := mf, low_amp := la,
         high := h, mid := m, low := l }

/-- Stages `0, ..., n-1` of a program state. -/
def stagesOf (s : State F O E V C B) : Nat → Option (List (Stage V))
  | 0 => some []
  | n + 1 => (stagesOf s n).bind fun l => (stageAt s n).map fun st => l ++ [st]

/-! ## Basic facts -/

theorem wrapInt_of_range {x : Int} (h0 : -2147483648 ≤ x) (h1 : x ≤ INT_MAX) :
    wrapInt x = x := by
  unfold wrapInt; unfold INT_MAX at h1; omega

theorem cRem_of_nonneg {a b : Int} (ha : 0 ≤ a) (hb : 0 ≤ b) : cRem a b = a % b :=
  Int.tmod_eq_emod ha hb

/-- The statements `x++; x %= n` on an index below `n`. -/
theorem incr_rem {a n : Int} (h0 : 0 ≤ a) (h1 : a < n) (hn : n ≤ INT_MAX) :
    cRem (wrapInt (a + 1)) n = (a + 1) % n := by
  have hw : wrapInt (a + 1) = a + 1 := by
    apply wrapInt_of_range <;> omega
  rw [hw]
  exact cRem_of_nonneg (by omega) (by omega)

theorem readAt_of_lt {α : Type} {a : List α} {i : Int} (h0 : 0 ≤ i)
    (h1 : i.toNat < a.length) : readAt a i = some (a.get ⟨i.toNat, h1⟩) := by
  unfold readAt
  rw [if_neg (by omega)]
  exact List.getElem?_eq_getElem h1

theorem writeAt_of_lt {α : Type} {a : List α} {i : Int} (v : α) (h0 : 0 ≤ i)
    (h1 : i.toNat < a.length) : writeAt a i v = some (a.set i.toNat v) := by
  unfold writeAt
  rw [if_neg (by omega), if_pos h1]

theorem modifyAt_of_lt {α : Type} {a : List α} {i : Int} (f : α → α) (h0 : 0 ≤ i)
    (h1 : i.toNat < a.length) :
    modifyAt a i f = some (a.set i.toNat (f (a.get ⟨i.toNat, h1⟩))) := by
  unfold modifyAt
  rw [readAt_of_lt h0 h1]
  exact writeAt_of_lt _ h0 h1

theorem writeIdx_of_lt {α : Type} {a : List α} {i : Nat} (v : α)
    (h1 : i < a.length) : writeIdx a i v = some (a.set i v) := by
  unfold writeIdx
  rw [if_pos h1]

/-- A counted loop whose body always succeeds and keeps an invariant succeeds
and ends in the invariant. -/
theorem forLoop_inv {σ : Type} (body : σ → Nat → Option σ) (I : σ → Prop)
    (n : Nat) (hbody : ∀ t i, i < n → I t → ∃ u, body t i = some u ∧ I u)
    (s : σ) (hs : I s) : ∀ k, k ≤ n → ∃ u, forLoop body k s = some u ∧ I u := by
  intro k
  induction k with
  | zero => intro _; exact ⟨s, rfl, hs⟩
  | succ k ih =>
    intro hk
    obtain ⟨t, ht, hI⟩ := ih (by omega)
    obtain ⟨u, hu, hIu⟩ := hbody t k (by omega) hI
    exact ⟨u, by simp [forLoop, ht, hu], hIu⟩

/-! ## The sequencer -/

/-- What a ticking invocation of `AdvanceSequencer` computes. -/
theorem AdvanceSequencer_fire (P : Dsp F O E V C B) (cfg : Config)
    (s : State F O E V C B) (hN : cfg.VOICE_COUNT ≤ INT_MAX) (hs : SeqOK cfg s)
    (hf : (P.metroProcess s.clock).2 = true) :
    ∃ (ho : s.current_voice.toNat < s.osc.length)
      (he : s.current_voice.toNat < s.env.length)
      (hp : s.current_voice.toNat < s.pitch_env.length),
      AdvanceSequencer P cfg s = some { s with
        clock := (P.metroProcess s.clock).1
        osc := s.osc.set s.current_voice.toNat
          (P.oscReset (s.osc.get ⟨s.current_voice.toNat, ho⟩))
        env := s.env.set s.current_voice.toNat
          (P.envTrigger (s.env.get ⟨s.current_voice.toNat, he⟩))
        pitch_env := s.pitch_env.set s.current_voice.toNat
          (P.envTrigger (s.pitch_env.get ⟨s.current_voice.toNat, hp⟩))
        current_voice := (s.current_voice + 1) % cfg.VOICE_COUNT } := by
  obtain ⟨h0, h1, h2, h3, h4⟩ := hs
  have ho : s.current_voice.toNat < s.osc.length := by omega
  have he : s.current_voice.toNat < s.env.length := by omega
  have hp : s.current_voice.toNat < s.pitch_env.length := by omega
  refine ⟨ho, he, hp, ?_⟩
  unfold AdvanceSequencer
  simp only [hf, if_true]
  rw [modifyAt_of_lt _ h0 ho, modifyAt_of_lt _ h0 he, modifyAt_of_lt _ h0 hp,
    incr_rem h0 h1 hN]
  rfl

/-- What a non-ticking invocation of `AdvanceSequencer` computes. -/
theorem AdvanceSequencer_idle (P : Dsp F O E V C B) (cfg : Config)
    (s : State F O E V C B) (hf : (P.metroProcess s.clock).2 = false) :
    AdvanceSequencer P cfg s = some { s with clock := (P.metroProcess s.clock).1 } := by
  unfold AdvanceSequencer
  simp [hf]

/-- One invocation of `AdvanceSequencer` succeeds, steps the metronome, moves
`current_voice` by the tick, and keeps the rest of the shape of the state. -/
theorem AdvanceSequencer_step (P : Dsp F O E V C B) (cfg : Config)
    (s : State F O E V C B) (hN1 : 1 ≤ cfg.VOICE_COUNT)
    (hN : cfg.VOICE_COUNT ≤ INT_MAX) (hs : SeqOK cfg s) :
    ∃ t, AdvanceSequencer P cfg s = some t ∧ SeqOK cfg t ∧
      t.clock = (P.metroProcess s.clock).1 ∧
      t.current_voice =
        (s.current_voice + (if (P.metroProcess s.clock).2 then 1 else 0)) % cfg.VOICE_COUNT ∧
      shape t = shape { s with current_voice := t.current_voice } := by
  cases hf : (P.metroProcess s.clock).2 with
  | true =>
    obtain ⟨ho, he, hp, h⟩ := AdvanceSequencer_fire P cfg s hN hs hf
    obtain ⟨h0, h1, h2, h3, h4⟩ := hs
    refine ⟨_, h, ⟨?_, ?_, ?_, ?_, ?_⟩, rfl, ?_, ?_⟩
    · exact Int.emod_nonneg _ (by omega)
    · exact Int.emod_lt_of_pos _ (by omega)
    · simpa using h2
    · simpa using h3
    · simpa using h4
    · simp
    · simp [shape, vals]
  | false =>
    refine ⟨_, AdvanceSequencer_idle P cfg s hf, ?_, rfl, ?_, ?_⟩
    · exact hs
    · obtain ⟨h0, h1, -⟩ := hs
      simp only [Bool.false_eq_true, if_false, add_zero]
      exact (Int.emod_eq_of_lt h0 h1).symm
    · rfl

/-- A run of the sequencer succeeds; `current_voice` moves by the number of
ticks, and the triggered voices are the successive indices from the start. -/
theorem runSequencer_spec (P : Dsp F O E V C B) (cfg : Config)
    (hN1 : 1 ≤ cfg.VOICE_COUNT) (hN : cfg.VOICE_COUNT ≤ INT_MAX) (n : Nat) :
    ∀ s : State F O E V C B, SeqOK cfg s →
      ∃ t, runSequencer P cfg n s = some t ∧ SeqOK cfg t ∧
        t.current_voice
          = (s.current_voice + (fireCount P n s.clock : Int)) % cfg.VOICE_COUNT ∧
        triggeredVoices P cfg n s
          = some ((List.range (fireCount P n s.clock)).map
              (fun k : Nat => (s.current_voice + (k : Int)) % cfg.VOICE_COUNT)) := by
  induction n with
  | zero =>
    intro s hs
    refine ⟨s, rfl, hs, ?_, rfl⟩
    obtain ⟨h0, h1, -⟩ := hs
    simp only [fireCount, Nat.cast_zero, add_zero]
    exact (Int.emod_eq_of_lt h0 h1).symm
  | succ n ih =>
    intro s hs
    obtain ⟨t, ht, htok, hclk, hcv, -⟩ := AdvanceSequencer_step P cfg s hN1 hN hs
    obtain ⟨u, hu, huok, hucv, hlog⟩ := ih t htok
    obtain ⟨h0, h1, -⟩ := hs
    refine ⟨u, by simp [runSequencer, ht, hu], huok, ?_, ?_⟩
    · rw [hucv, hcv, hclk, Int.emod_add_emod]
      congr 1
      simp only [fireCount]
      split <;> push_cast <;> ring
    · simp only [triggeredVoices, ht, Option.some_bind, hlog, Option.map_some', firedVoice,
        fireCount, hclk, hcv]
      cases hf : (P.metroProcess s.clock).2 with
      | false =>
        simp only [Bool.false_eq_true, if_false, add_zero, Option.toList, List.nil_append,
          zero_add, Int.emod_emod_of_dvd _ (dvd_refl _), Int.emod_add_emod]
      | true =>
        simp only [if_true, Option.toList, List.singleton_append, Int.emod_add_emod]
        rw [Nat.add_comm 1, List.range_succ_eq_map, List.map_cons, List.map_map]
        simp only [Nat.cast_zero, add_zero, Int.emod_eq_of_lt h0 h1]
        congr 2
        apply List.map_congr_left
        intro k _
        simp only [Function.comp, Nat.cast_succ]
        congr 1
        ring

/-! ## Totality of the callback -/

theorem shape_eq_iff (s t : State F O E V C B) :
    shape t = shape s ↔
      t.current_voice = s.current_voice ∧ t.current_mx = s.current_mx ∧
      t.update_step = s.update_step ∧ vals t = vals s ∧
      (t.osc.length = s.osc.length ∧ t.env.length = s.env.length ∧
      t.pitch_env.length = s.pitch_env.length ∧ t.mx_h.length = s.mx_h.length ∧
      t.mx_m.length = s.mx_m.length ∧ t.mx_l.length = s.mx_l.length) ∧
      t.params = s.params ∧ t.button1 = s.button1 ∧ t.button2 = s.button2 ∧
      t.button3 = s.button3 := by
  simp only [shape, Prod.mk.injEq]

theorem vals_eq_iff (s t : State F O E V C B) :
    vals t = vals s ↔
      t.mx_h_amp_val = s.mx_h_amp_val ∧ t.mx_m_freq_val = s.mx_m_freq_val ∧
      t.mx_m_amp_val = s.mx_m_amp_val ∧ t.mx_l_amp_val = s.mx_l_amp_val ∧
      t.mx_gain_val = s.mx_gain_val := by
  simp only [vals, Prod.mk.injEq]

theorem StateOK_of_shape {cfg : Config} {s t : State F O E V C B}
    (h : shape t = shape s) (hs : StateOK cfg s) : StateOK cfg t := by
  rw [shape_eq_iff, vals_eq_iff] at h
  obtain ⟨h1, h2, h3, ⟨h4, h5, h6, h7, h8⟩, ⟨h9, h10, h11, h12, h13, h14⟩, -⟩ := h
  unfold StateOK SeqOK MixOK at *
  rw [h1, h2, h3, h4, h5, h6, h7, h8, h9, h10, h11, h12, h13, h14]
  exact hs

theorem SetEnvelopeParametersBody_ok (P : Dsp F O E V C B)
    (t : State F O E V C B) (i : Nat) (he : i < t.env.length)
    (hp : i < t.pitch_env.length) :
    ∃ u, SetEnvelopeParametersBody P t i = some u ∧ shape u = shape t ∧
      u.params = t.params ∧ u.clock = t.clock ∧
      u.button2 = t.button2 ∧ u.button3 = t.button3 := by
  unfold SetEnvelopeParametersBody
  rw [List.getElem?_eq_getElem he, List.getElem?_eq_getElem hp]
  refine ⟨_, rfl, ?_, rfl, rfl, rfl, rfl⟩
  simp [shape, vals]

theorem SetEnvelopeParameters_ok (P : Dsp F O E V C B) (cfg : Config)
    (s : State F O E V C B) (hs : StateOK cfg s) :
    ∃ u, SetEnvelopeParameters P cfg s = some u ∧ shape u = shape s ∧
      u.params = s.params ∧ u.clock = s.clock := by
  have h := forLoop_inv (SetEnvelopeParametersBody P)
    (fun t => shape t = shape s ∧ t.params = s.params ∧ t.clock = s.clock)
    cfg.VOICE_COUNT.toNat
    (by
      intro t i hi ⟨hsh, hpar, hclk⟩
      have hl := (shape_eq_iff s t).mp hsh
      obtain ⟨u, hu, hush, hupar, huclk, -⟩ := SetEnvelopeParametersBody_ok P t i
        (by have := hs.1.2.2.2.1; omega) (by have := hs.1.2.2.2.2; omega)
      exact ⟨u, hu, hush.trans hsh, hupar.trans hpar, huclk.trans hclk⟩)
    s ⟨rfl, rfl, rfl⟩ cfg.VOICE_COUNT.toNat (le_refl _)
  exact h

theorem NextSamplesBody_ok (P : Dsp F O E V C B)
    (x : State F O E V C B × F) (i : Nat) (ho : i < x.1.osc.length)
    (he : i < x.1.env.length) (hp : i < x.1.pitch_env.length) :
    ∃ u, NextSamplesBody P x i = some u ∧ shape u.1 = shape x.1 := by
  unfold NextSamplesBody
  simp only [List.getElem?_eq_getElem ho, List.getElem?_eq_getElem he,
    List.getElem?_eq_getElem hp]
  refine ⟨_, rfl, ?_⟩
  simp [shape, vals]

theorem NextSamples_ok (P : Dsp F O E V C B) (cfg : Config)
    (s : State F O E V C B) (sig : F) (hs : StateOK cfg s) :
    ∃ u, NextSamples P cfg s sig = some u ∧ shape u.1 = shape s := by
  have h := forLoop_inv (NextSamplesBody P)
    (fun x => shape x.1 = shape s)
    cfg.VOICE_COUNT.toNat
    (by
      intro t i hi hsh
      have hl := (shape_eq_iff s t.1).mp hsh
      obtain ⟨u, hu, hush⟩ := NextSamplesBody_ok P t i
        (by have := hs.1.2.2.1; omega)
        (by have := hs.1.2.2.2.1; omega) (by have := hs.1.2.2.2.2; omega)
      exact ⟨u, hu, hush.trans hsh⟩)
    (s, sig) rfl cfg.VOICE_COUNT.toNat (le_refl _)
  exact h

/-! ## The mixer loop against the chain of stages -/

theorem stageAt_eq_some_iff (s : State F O E V C B) (i : Nat) (st : Stage V) :
    stageAt s i = some st ↔
      s.mx_gain_val[i]? = some st.gain ∧ s.mx_h_amp_val[i]? = some st.high_amp ∧
      s.mx_m_amp_val[i]? = some st.mid_amp ∧ s.mx_m_freq_val[i]? = some st.mid_freq ∧
      s.mx_l_amp_val[i]? = some st.low_amp ∧ s.mx_h[i]? = some st.high ∧
      s.mx_m[i]? = some st.mid ∧ s.mx_l[i]? = some st.low := by
  constructor
  · intro h
    simp only [stageAt, Option.bind_eq_bind, Option.pure_def, Option.bind_eq_some] at h
    obtain ⟨g, hg, ha, hha, ma, hma, mf, hmf, la, hla, fh, hfh, fm, hfm, fl, hfl, hst⟩ := h
    simp only [Option.some.injEq] at hst
    subst hst
    exact ⟨hg, hha, hma, hmf, hla, hfh, hfm, hfl⟩
  · rintro ⟨hg, hha, hma, hmf, hla, hfh, hfm, hfl⟩
    simp only [stageAt, hg, hha, hma, hmf, hla, hfh, hfm, hfl, Option.bind_eq_bind,
      Option.some_bind, Option.pure_def]

theorem stageAt_exists (s : State F O E V C B) (i : Nat)
    (h1 : i < s.mx_gain_val.length) (h2 : i < s.mx_h_amp_val.length)
    (h3 : i < s.mx_m_amp_val.length) (h4 : i < s.mx_m_freq_val.length)
    (h5 : i < s.mx_l_amp_val.length) (h6 : i < s.mx_h.length)
    (h7 : i < s.mx_m.length) (h8 : i < s.mx_l.length) :
    ∃ st, stageAt s i = some st :=
  ⟨{ gain := s.mx_gain_val.get ⟨i, h1⟩, high_amp := s.mx_h_amp_val.get ⟨i, h2⟩,
     mid_amp := s.mx_m_amp_val.get ⟨i, h3⟩, mid_freq := s.mx_m_freq_val.get ⟨i, h4⟩,
     low_amp := s.mx_l_amp_val.get ⟨i, h5⟩, high := s.mx_h.get ⟨i, h6⟩,
     mid := s.mx_m.get ⟨i, h7⟩, low := s.mx_l.get ⟨i, h8⟩ },
   (stageAt_eq_some_iff s i _).mpr
     ⟨List.getElem?_eq_getElem h1, List.getElem?_eq_getElem h2,
      List.getElem?_eq_getElem h3, List.getElem?_eq_getElem h4,
      List.getElem?_eq_getElem h5, List.getElem?_eq_getElem h6,
      List.getElem?_eq_getElem h7, List.getElem?_eq_getElem h8⟩⟩

/-- One iteration of the mixer loop is one stage of the chain, stored back at
index `i` of the three filter arrays. -/
theorem MixerBody_eq (P : Dsp F O E V C B) (x : State F O E V C B × F) (i : Nat)
    (st : Stage V) (h : stageAt x.1 i = some st) :
    MixerBody P x i = some
      (withFilters x.1 (x.1.mx_h.set i (stageSpec P st x.2).1.high)
         (x.1.mx_m.set i (stageSpec P st x.2).1.mid)
         (x.1.mx_l.set i (stageSpec P st x.2).1.low),
       (stageSpec P st x.2).2) := by
  obtain ⟨hg, hha, hma, hmf, hla, hfh, hfm, hfl⟩ := (stageAt_eq_some_iff _ _ _).mp h
  simp only [MixerBody, hg, hha, hma, hmf, hla, hfh, hfm, hfl, Option.bind_eq_bind,
    Option.some_bind, Option.pure_def, stageSpec, withFilters]

theorem chainSpec_append (P : Dsp F O E V C B) (l : List (Stage V)) (st : Stage V) :
    ∀ x : F, chainSpec P (l ++ [st]) x
      = ((chainSpec P l x).1 ++ [(stageSpec P st (chainSpec P l x).2).1],
         (stageSpec P st (chainSpec P l x).2).2) := by
  induction l with
  | nil => intro x; simp [chainSpec]
  | cons a l ih => intro x; simp [chainSpec, ih]

theorem stagesOf_congr (s t : State F O E V C B) (k : Nat)
    (h : ∀ i, i < k → stageAt t i = stageAt s i) : stagesOf t k = stagesOf s k := by
  induction k with
  | zero => rfl
  | succ k ih =>
    simp only [stagesOf]
    rw [ih (fun i hi => h i (by omega)), h k (by omega)]

theorem stageAt_withFilters_congr (s : State F O E V C B) (i : Nat)
    (h m l h' m' l' : List V) (e1 : h'[i]? = h[i]?) (e2 : m'[i]? = m[i]?)
    (e3 : l'[i]? = l[i]?) :
    stageAt (withFilters s h' m' l') i = stageAt (withFilters s h m l) i := by
  simp only [stageAt, withFilters, e1, e2, e3]

theorem withFilters_self (s : State F O E V C B) :
    withFilters s s.mx_h s.mx_m s.mx_l = s := rfl

/-- After `k` iterations the mixer loop has applied stages `0, ..., k-1` of the
chain, in this order, and has stored their filters back. -/
theorem Mixer_loop_chain (P : Dsp F O E V C B) (s : State F O E V C B) (x : F)
    (k : Nat) (h1 : k ≤ s.mx_gain_val.length) (h2 : k ≤ s.mx_h_amp_val.length)
    (h3 : k ≤ s.mx_m_amp_val.length) (h4 : k ≤ s.mx_m_freq_val.length)
    (h5 : k ≤ s.mx_l_amp_val.length) (h6 : k ≤ s.mx_h.length)
    (h7 : k ≤ s.mx_m.length) (h8 : k ≤ s.mx_l.length) :
    ∃ l h m lo, stagesOf s k = some l ∧
      forLoop (MixerBody P) k (s, x)
        = some (withFilters s h m lo, (chainSpec P l x).2) ∧
      stagesOf (withFilters s h m lo) k = some (chainSpec P l x).1 ∧
      h.length = s.mx_h.length ∧ m.length = s.mx_m.length ∧
      lo.length = s.mx_l.length ∧
      ∀ i, k ≤ i → h[i]? = s.mx_h[i]? ∧ m[i]? = s.mx_m[i]? ∧ lo[i]? = s.mx_l[i]? := by
  induction k with
  | zero =>
    exact ⟨[], s.mx_h, s.mx_m, s.mx_l, rfl, rfl, rfl, rfl, rfl, rfl,
      fun i _ => ⟨rfl, rfl, rfl⟩⟩
  | succ k ih =>
    obtain ⟨l, h, m, lo, hl, hrun, hst, eh, em, elo, hrest⟩ :=
      ih (by omega) (by omega) (by omega) (by omega) (by omega) (by omega) (by omega)
        (by omega)
    obtain ⟨st, hstk⟩ := stageAt_exists s k (by omega) (by omega) (by omega)
      (by omega) (by omega) (by omega) (by omega) (by omega)
    have hk := hrest k (le_refl _)
    have hstk' : stageAt (withFilters s h m lo) k = some st := by
      rw [← hstk, ← withFilters_self s]
      exact stageAt_withFilters_congr s k _ _ _ _ _ _ hk.1 hk.2.1 hk.2.2
    have hbody := MixerBody_eq P (withFilters s h m lo, (chainSpec P l x).2) k st hstk'
    refine ⟨l ++ [st], h.set k (stageSpec P st (chainSpec P l x).2).1.high,
      m.set k (stageSpec P st (chainSpec P l x).2).1.mid,
      lo.set k (stageSpec P st (chainSpec P l x).2).1.low, ?_, ?_, ?_, ?_, ?_, ?_, ?_⟩
    · simp only [stagesOf, hl, hstk, Option.some_bind, Option.map_some']
    · simp only [forLoop, hrun, Option.some_bind, hbody, chainSpec_append]
      rfl
    · simp only [stagesOf, chainSpec_append]
      have hprev : stagesOf (withFilters s
            (h.set k (stageSpec P st (chainSpec P l x).2).1.high)
            (m.set k (stageSpec P st (chainSpec P l x).2).1.mid)
            (lo.set k (stageSpec P st (chainSpec P l x).2).1.low)) k
          = stagesOf (withFilters s h m lo) k := by
        apply stagesOf_congr
        intro i hi
        apply stageAt_withFilters_congr <;>
          exact List.getElem?_set_ne (by omega)
      rw [hprev, hst]
      have hnew : stageAt (withFilters s
            (h.set k (stageSpec P st (chainSpec P l x).2).1.high)
            (m.set k (stageSpec P st (chainSpec P l x).2).1.mid)
            (lo.set k (stageSpec P st (chainSpec P l x).2).1.low)) k
          = some (stageSpec P st (chainSpec P l x).2).1 := by
        obtain ⟨hg, hha, hma, hmf, hla, -, -, -⟩ := (stageAt_eq_some_iff _ _ _).mp hstk'
        rw [stageAt_eq_some_iff]
        refine ⟨hg, hha, hma, hmf, hla, ?_, ?_, ?_⟩
        · exact List.getElem?_set_self (by rw [eh]; omega)
        · exact List.getElem?_set_self (by rw [em]; omega)
        · exact List.getElem?_set_self (by rw [elo]; omega)
      rw [hnew]
      rfl
    · rw [List.length_set, eh]
    · rw [List.length_set, em]
    · rw [List.length_set, elo]
    · intro i hi
      have := hrest i (by omega)
      refine ⟨?_, ?_, ?_⟩
      · rw [List.getElem?_set_ne (by omega)]; exact this.1
      · rw [List.getElem?_set_ne (by omega)]; exact this.2.1
      · rw [List.getElem?_set_ne (by omega)]; exact this.2.2

theorem selectorUpdate_range (cfg : Config) (a : Int) (fwd bwd : Bool)
    (h0 : 0 ≤ a) (h1 : a < cfg.MIXER_CHANNEL) (hM : cfg.MIXER_CHANNEL ≤ INT_MAX) :
    0 ≤ selectorUpdate cfg a fwd bwd ∧ selectorUpdate cfg a fwd bwd < cfg.MIXER_CHANNEL := by
  have hr := incr_rem h0 h1 hM
  have e0 := Int.emod_nonneg (a + 1) (by omega : cfg.MIXER_CHANNEL ≠ 0)
  have e1 := Int.emod_lt_of_pos (a + 1) (by omega : 0 < cfg.MIXER_CHANNEL)
  have hw : ∀ m : Int, 0 < m → m < cfg.MIXER_CHANNEL → wrapInt (m - 1) = m - 1 := by
    intro m hm0 hm1
    apply wrapInt_of_range
    · omega
    · unfold INT_MAX at *; omega
  unfold selectorUpdate
  rw [hr]
  cases fwd <;> cases bwd <;>
    simp only [Bool.false_eq_true, if_false, if_true, Bool.and_false, Bool.and_true,
      decide_eq_true_eq]
  · exact ⟨h0, h1⟩
  · split
    · rename_i h; rw [hw a h h1]; omega
    · exact ⟨h0, h1⟩
  · exact ⟨e0, e1⟩
  · split
    · rename_i h; rw [hw _ h e1]; omega
    · exact ⟨e0, e1⟩

theorem UpdateMixerParameters_eq (P : Dsp F O E V C B) (s : State F O E V C B)
    (h0 : 0 ≤ s.current_mx) (h1 : s.current_mx.toNat < s.mx_h_amp_val.length)
    (h2 : s.current_mx.toNat < s.mx_m_freq_val.length)
    (h3 : s.current_mx.toNat < s.mx_m_amp_val.length)
    (h4 : s.current_mx.toNat < s.mx_l_amp_val.length)
    (h5 : s.current_mx.toNat < s.mx_gain_val.length) :
    UpdateMixerParameters P s = some { s with
      mx_h_amp_val := s.mx_h_amp_val.set s.current_mx.toNat (P.toInt s.params.mx_h_amp)
      mx_m_freq_val := s.mx_m_freq_val.set s.current_mx.toNat (P.toInt s.params.mx_m_freq)
      mx_m_amp_val := s.mx_m_amp_val.set s.current_mx.toNat (P.toInt s.params.mx_m_amp)
      mx_l_amp_val := s.mx_l_amp_val.set s.current_mx.toNat (P.toInt s.params.mx_l_amp)
      mx_gain_val := s.mx_gain_val.set s.current_mx.toNat (P.toInt s.params.mx_gain) } := by
  unfold UpdateMixerParameters
  rw [writeAt_of_lt _ h0 h1, writeAt_of_lt _ h0 h2, writeAt_of_lt _ h0 h3,
    writeAt_of_lt _ h0 h4, writeAt_of_lt _ h0 h5]
  rfl

theorem UpdateMixerParameters_ok (P : Dsp F O E V C B) (cfg : Config)
    (s : State F O E V C B) (hs : MixOK cfg s) :
    ∃ t, UpdateMixerParameters P s = some t ∧ MixOK cfg t ∧
      vals t = writtenVals P s s.current_mx.toNat s.params ∧
      withFilters t s.mx_h s.mx_m s.mx_l = t ∧
      t.current_mx = s.current_mx ∧ t.current_voice = s.current_voice ∧
      t.update_step = s.update_step ∧ t.params = s.params ∧
      t.button1 = s.button1 ∧ t.button2 = s.button2 ∧ t.button3 = s.button3 ∧
      t.osc = s.osc ∧ t.env = s.env ∧ t.pitch_env = s.pitch_env ∧
      t.clock = s.clock ∧ t.hp = s.hp ∧ t.log_step = s.log_step := by
  obtain ⟨h0, h1, hh, hm, hl, e1, e2, e3, e4, e5⟩ := hs
  refine ⟨_, UpdateMixerParameters_eq P s h0 (by omega) (by omega) (by omega) (by omega)
    (by omega), ?_, rfl, rfl, rfl, rfl, rfl, rfl, rfl, rfl, rfl, rfl, rfl, rfl, rfl, rfl, rfl⟩
  unfold MixOK
  simp only [List.length_set]
  exact ⟨h0, h1, hh, hm, hl, e1, e2, e3, e4, e5⟩

theorem Mixer_ok (P : Dsp F O E V C B) (cfg : Config)
    (s : State F O E V C B) (sig : F) (hs : StateOK cfg s) :
    ∃ u, Mixer P cfg s sig = some u ∧ shape u.1 = shape s ∧ u.1.hp = s.hp := by
  obtain ⟨-, ⟨-, -, hh, hm, hl, e1, e2, e3, e4, e5⟩, -⟩ := hs
  obtain ⟨l, h, m, lo, -, hrun, -, eh, em, elo, -⟩ :=
    Mixer_loop_chain P s sig cfg.MIXER_CHANNEL.toNat (by omega) (by omega) (by omega)
      (by omega) (by omega) hh hm hl
  refine ⟨_, hrun, ?_, rfl⟩
  simp [shape, vals, withFilters, eh, em, elo]

theorem frameBody_ok (P : Dsp F O E V C B) (cfg : Config)
    (x : FrameSt F O E V C B) (j : Nat) (hs : StateOK cfg x.st)
    (hj : 2 * j + 1 < x.out.length) :
    ∃ u, frameBody P cfg x j = some u ∧ shape u.st = shape x.st ∧
      u.out.length = x.out.length := by
  obtain ⟨r, hr, hrs⟩ := NextSamples_ok P cfg x.st x.sig hs
  obtain ⟨q, hq, hqs, -⟩ := Mixer_ok P cfg r.1 r.2 (StateOK_of_shape hrs hs)
  unfold frameBody
  simp only [hr, hq, Option.bind_eq_bind, Option.some_bind, Option.pure_def]
  rw [writeIdx_of_lt _ (by omega : 2 * j < x.out.length)]
  simp only [Option.some_bind]
  rw [writeIdx_of_lt _ (by rw [List.length_set]; exact hj)]
  refine ⟨_, rfl, ?_, ?_⟩
  · rw [← hrs, ← hqs]
    simp [shape, vals]
  · simp

theorem frames_ok (P : Dsp F O E V C B) (cfg : Config)
    (s : State F O E V C B) (sig : F) (out : List F) (size : Nat)
    (hs : StateOK cfg s) (hev : size % 2 = 0) (hlen : size ≤ out.length) :
    ∃ u, forLoop (frameBody P cfg) (frameCount size) { st := s, sig := sig, out := out }
        = some u ∧ shape u.st = shape s ∧ u.out.length = out.length := by
  have h := forLoop_inv (frameBody P cfg)
    (fun x => shape x.st = shape s ∧ x.out.length = out.length)
    (frameCount size)
    (by
      intro t j hj ⟨hsh, hout⟩
      unfold frameCount at hj
      obtain ⟨u, hu, hush, huout⟩ := frameBody_ok P cfg t j (StateOK_of_shape hsh hs)
        (by omega)
      exact ⟨u, hu, hush.trans hsh, huout.trans hout⟩)
    { st := s, sig := sig, out := out } ⟨rfl, rfl⟩ (frameCount size) (le_refl _)
  exact h

theorem beforeFrames_ok (P : Dsp F O E V C B) (cfg : Config)
    (s : State F O E V C B) (hcfg : cfg.Valid) (hs : StateOK cfg s) :
    ∃ t, beforeFrames P cfg s = some t ∧ StateOK cfg t ∧
      t.update_step = (s.update_step + 1) % cfg.UPDATE_RATE ∧
      t.current_mx = selectorUpdate cfg s.current_mx
        (P.swRisingEdge s.button2) (P.swRisingEdge s.button3) ∧
      vals t = vals s ∧ t.params = s.params := by
  obtain ⟨hN1, hN, hM1, hM, hK1, hK⟩ := hcfg
  obtain ⟨hseq, hmix, hu0, hu1⟩ := hs
  have hstep := incr_rem hu0 hu1 hK
  have hsel := selectorUpdate_range cfg s.current_mx (P.swRisingEdge s.button2)
    (P.swRisingEdge s.button3) hmix.1 hmix.2.1 hM
  obtain ⟨t, ht, htok, -, -, htsh⟩ := AdvanceSequencer_step P cfg
    { s with
      update_step := cRem (wrapInt (s.update_step + 1)) cfg.UPDATE_RATE
      current_mx := selectorUpdate cfg s.current_mx
        (P.swRisingEdge s.button2) (P.swRisingEdge s.button3) } hN1 hN hseq
  have htOK : StateOK cfg t := by
    refine StateOK_of_shape htsh ⟨⟨htok.1, htok.2.1, hseq.2.2⟩,
      ⟨hsel.1, hsel.2, hmix.2.2⟩, ?_, ?_⟩
    · show 0 ≤ cRem (wrapInt (s.update_step + 1)) cfg.UPDATE_RATE
      rw [hstep]; exact Int.emod_nonneg _ (by omega)
    · show cRem (wrapInt (s.update_step + 1)) cfg.UPDATE_RATE < cfg.UPDATE_RATE
      rw [hstep]; exact Int.emod_lt_of_pos _ (by omega)
  obtain ⟨u, hu, hush, -, -⟩ := SetEnvelopeParameters_ok P cfg t htOK
  have hfin : shape { u with clock := P.metroSetFreq u.clock u.params.clock_speed }
      = shape u := rfl
  refine ⟨_, ?_, StateOK_of_shape (hfin.trans hush) htOK, ?_, ?_, ?_, ?_⟩
  · unfold beforeFrames
    simp only [Option.bind_eq_bind, Option.pure_def]
    rw [ht]
    simp only [Option.some_bind]
    rw [hu]
    rfl
  · have h := (shape_eq_iff _ _).mp (hush.trans htsh)
    show u.update_step = _
    rw [h.2.2.1]
    exact hstep
  · have h := (shape_eq_iff _ _).mp (hush.trans htsh)
    show u.current_mx = _
    rw [h.2.1]
  · have h := (shape_eq_iff _ _).mp (hush.trans htsh)
    show vals u = _
    rw [h.2.2.2.1]
    rfl
  · have h := (shape_eq_iff _ _).mp (hush.trans htsh)
    show u.params = _
    rw [h.2.2.2.2.2.1]

theorem logStep_eq (s : State F O E V C B) :
    logStep s = { s with log_step := cRem (wrapInt (s.log_step + 1)) LOG_RATE } := by
  simp [logStep, LOGGING]

theorem controlTick_ok (P : Dsp F O E V C B) (cfg : Config)
    (s : State F O E V C B) (inp : CallbackIn F) (hs : StateOK cfg s) :
    ∃ t, controlTick P s inp = some t ∧ StateOK cfg t ∧
      t.update_step = s.update_step ∧ t.current_mx = s.current_mx ∧
      vals t = writtenVals P s s.current_mx.toNat inp.fresh ∧
      t.params = inp.fresh ∧
      t.button2 = P.swDebounce s.button2 inp.pin2 ∧
      t.button3 = P.swDebounce s.button3 inp.pin3 := by
  obtain ⟨hseq, hmix, hu0, hu1⟩ := hs
  have hmix' : MixOK cfg (UpdateParameters s inp) := hmix
  obtain ⟨t, ht, htmix, htv, -, e1, e2, e3, e4, -, e5, e6, e7, e8, e9, -⟩ :=
    UpdateMixerParameters_ok P cfg (UpdateParameters s inp) hmix'
  refine ⟨UpdateDigitalControls P t inp, ?_, ⟨?_, htmix, ?_, ?_⟩, e3, e1, htv, e4, ?_, ?_⟩
  · unfold controlTick
    simp only [Option.bind_eq_bind, Option.pure_def]
    rw [ht]
    rfl
  · unfold SeqOK
    show 0 ≤ t.current_voice ∧ t.current_voice < _ ∧ t.osc.length = _ ∧
      t.env.length = _ ∧ t.pitch_env.length = _
    rw [e2, e7, e8, e9]
    exact hseq
  · show 0 ≤ t.update_step
    rw [e3]; exact hu0
  · show t.update_step < _
    rw [e3]; exact hu1
  · show P.swDebounce t.button2 inp.pin2 = _
    rw [e5]; rfl
  · show P.swDebounce t.button3 inp.pin3 = _
    rw [e6]; rfl

/-- One callback on a well-formed state and buffer returns; the state stays
well formed, and the counters, the selector, the stored stage parameters and
the parameter values are as computed here. -/
theorem AudioCallback_spec (P : Dsp F O E V C B) (cfg : Config)
    (s : State F O E V C B) (inp : CallbackIn F) (hcfg : cfg.Valid)
    (hs : StateOK cfg s) (hin : InOK inp) :
    ∃ r, AudioCallback P cfg s inp = some r ∧ StateOK cfg r.1 ∧
      r.1.update_step = (s.update_step + 1) % cfg.UPDATE_RATE ∧
      r.1.current_mx = selectorUpdate cfg s.current_mx
        (forwardEdge P s inp) (backwardEdge P s inp) ∧
      vals r.1 = (if s.update_step = 0
        then writtenVals P s s.current_mx.toNat inp.fresh else vals s) ∧
      r.1.params = (if s.update_step = 0 then inp.fresh else s.params) ∧
      r.2.length = inp.out.length := by
  have hlog : StateOK cfg (logStep s) := by rw [logStep_eq]; exact hs
  by_cases h0 : s.update_step = 0
  · have h0' : (logStep s).update_step = 0 := by rw [logStep_eq]; exact h0
    obtain ⟨t, ht, htOK, e1, e2, e3, e4, e5, e6⟩ := controlTick_ok P cfg (logStep s) inp hlog
    obtain ⟨u, hu, huOK, f1, f2, f3, f4⟩ := beforeFrames_ok P cfg t hcfg htOK
    obtain ⟨w, hw, hwsh, hwout⟩ := frames_ok P cfg u P.fzero inp.out inp.size huOK hin.1 hin.2
    have hsh := (shape_eq_iff _ _).mp hwsh
    refine ⟨(w.st, w.out), ?_, StateOK_of_shape hwsh huOK, ?_, ?_, ?_, ?_, hwout⟩
    · unfold AudioCallback afterTick
      simp only [Option.bind_eq_bind, Option.pure_def, h0', if_true, ht, Option.some_bind, hu,
        hw]
    · show w.st.update_step = _
      rw [hsh.2.2.1, f1, e1, logStep_eq]
    · show w.st.current_mx = _
      rw [hsh.2.1, f2, e2, e5, e6, logStep_eq]
      simp only [forwardEdge, backwardEdge, h0, if_true]
    · show vals w.st = _
      rw [hsh.2.2.2.1, f3, e3, if_pos h0, logStep_eq]
      rfl
    · show w.st.params = _
      rw [hsh.2.2.2.2.2.1, f4, e4, if_pos h0]
  · have h0' : ¬ (logStep s).update_step = 0 := by rw [logStep_eq]; exact h0
    obtain ⟨u, hu, huOK, f1, f2, f3, f4⟩ := beforeFrames_ok P cfg (logStep s) hcfg hlog
    obtain ⟨w, hw, hwsh, hwout⟩ := frames_ok P cfg u P.fzero inp.out inp.size huOK hin.1 hin.2
    have hsh := (shape_eq_iff _ _).mp hwsh
    refine ⟨(w.st, w.out), ?_, StateOK_of_shape hwsh huOK, ?_, ?_, ?_, ?_, hwout⟩
    · unfold AudioCallback afterTick
      simp only [Option.bind_eq_bind, Option.pure_def, h0', if_false, Option.some_bind, hu,
        hw]
    · show w.st.update_step = _
      rw [hsh.2.2.1, f1, logStep_eq]
    · show w.st.current_mx = _
      rw [hsh.2.1, f2, logStep_eq]
      simp only [forwardEdge, backwardEdge, h0, if_false]
    · show vals w.st = _
      rw [hsh.2.2.2.1, f3, if_neg h0, logStep_eq]
      rfl
    · show w.st.params = _
      rw [hsh.2.2.2.2.2.1, f4, if_neg h0, logStep_eq]

/-- A run of callbacks on well-formed buffers returns; the state stays well
formed and `update_step` has advanced by the number of callbacks. -/
theorem runCallbacks_ok (P : Dsp F O E V C B) (cfg : Config) (hcfg : cfg.Valid)
    (inps : List (CallbackIn F)) :
    ∀ s : State F O E V C B, StateOK cfg s → (∀ i ∈ inps, InOK i) →
      ∃ t, runCallbacks P cfg inps s = some t ∧ StateOK cfg t ∧
        t.update_step = (s.update_step + (inps.length : Int)) % cfg.UPDATE_RATE := by
  induction inps with
  | nil =>
    intro s hs _
    refine ⟨s, rfl, hs, ?_⟩
    simp only [List.length_nil, Nat.cast_zero, add_zero]
    exact (Int.emod_eq_of_lt hs.2.2.1 hs.2.2.2).symm
  | cons inp rest ih =>
    intro s hs hin
    obtain ⟨r, hr, hrOK, hstep, -⟩ := AudioCallback_spec P cfg s inp hcfg hs
      (hin inp (List.mem_cons_self _ _))
    obtain ⟨t, ht, htOK, htstep⟩ := ih r.1 hrOK
      (fun i hi => hin i (List.mem_cons_of_mem _ hi))
    refine ⟨t, by simp [runCallbacks, hr, ht], htOK, ?_⟩
    rw [htstep, hstep, Int.emod_add_emod]
    congr 1
    simp only [List.length_cons, Nat.cast_succ]
    ring

theorem stageVals_written_ne (P : Dsp F O E V C B) (s t : State F O E V C B)
    (a : Nat) (p : Parameters F) (h : vals t = writtenVals P s a p) (j : Nat)
    (hj : j ≠ a) : stageVals t j = stageVals s j := by
  simp only [vals, writtenVals, Prod.mk.injEq] at h
  obtain ⟨h1, h2, h3, h4, h5⟩ := h
  simp only [stageVals, h1, h2, h3, h4, h5, List.getElem?_set_ne (Ne.symm hj)]

theorem stageVals_written_self (P : Dsp F O E V C B) (s t : State F O E V C B)
    (a : Nat) (p : Parameters F) (h : vals t = writtenVals P s a p)
    (h1 : a < s.mx_h_amp_val.length) (h2 : a < s.mx_m_freq_val.length)
    (h3 : a < s.mx_m_amp_val.length) (h4 : a < s.mx_l_amp_val.length)
    (h5 : a < s.mx_gain_val.length) :
    stageVals t a = (some (P.toInt p.mx_gain), some (P.toInt p.mx_h_amp),
      some (P.toInt p.mx_m_amp), some (P.toInt p.mx_m_freq), some (P.toInt p.mx_l_amp)) := by
  simp only [vals, writtenVals, Prod.mk.injEq] at h
  obtain ⟨e1, e2, e3, e4, e5⟩ := h
  simp only [stageVals, e1, e2, e3, e4, e5, List.getElem?_set_self h1,
    List.getElem?_set_self h2, List.getElem?_set_self h3, List.getElem?_set_self h4,
    List.getElem?_set_self h5]

theorem repeatUpdateMixer_ok (P : Dsp F O E V C B) (cfg : Config) (n : Nat) :
    ∀ s : State F O E V C B, MixOK cfg s →
      ∃ t, repeatUpdateMixer P n s = some t ∧ MixOK cfg t ∧
        t.current_mx = s.current_mx ∧ t.current_voice = s.current_voice ∧
        t.params = s.params ∧
        ∀ j, j ≠ s.current_mx.toNat → stageVals t j = stageVals s j := by
  induction n with
  | zero => intro s hs; exact ⟨s, rfl, hs, rfl, rfl, rfl, fun _ _ => rfl⟩
  | succ n ih =>
    intro s hs
    obtain ⟨t, ht, htmix, htv, -, e1, e2, -, e4, -⟩ := UpdateMixerParameters_ok P cfg s hs
    obtain ⟨u, hu, humix, f1, f2, f3, f4⟩ := ih t htmix
    refine ⟨u, by simp [repeatUpdateMixer, ht, hu], humix, f1.trans e1, f2.trans e2,
      f3.trans e4, ?_⟩
    intro j hj
    rw [f4 j (by rw [e1]; exact hj)]
    exact stageVals_written_ne P s t _ _ htv j hj

theorem stagesOf_length (s : State F O E V C B) (k : Nat) :
    ∀ l, stagesOf s k = some l → l.length = k := by
  induction k with
  | zero => intro l h; simp only [stagesOf, Option.some.injEq] at h; subst h; rfl
  | succ k ih =>
    intro l h
    simp only [stagesOf, Option.bind_eq_some, Option.map_eq_some'] at h
    obtain ⟨l', hl', st, -, rfl⟩ := h
    simp [ih l' hl']

theorem selectorUpdate_forward (cfg : Config) (a : Int) (h0 : 0 ≤ a)
    (h1 : a < cfg.MIXER_CHANNEL) (hM : cfg.MIXER_CHANNEL ≤ INT_MAX) (bwd : Bool) :
    selectorUpdate cfg a true bwd =
      if decide ((a + 1) % cfg.MIXER_CHANNEL > 0) && bwd
      then wrapInt ((a + 1) % cfg.MIXER_CHANNEL - 1) else (a + 1) % cfg.MIXER_CHANNEL := by
  unfold selectorUpdate
  simp only [if_true, incr_rem h0 h1 hM]

theorem succ_emod_ne_self (a M : Int) (h0 : 0 ≤ a) (h1 : a < M) (hM : 2 ≤ M) :
    0 ≤ (a + 1) % M ∧ (a + 1) % M ≠ a := by
  refine ⟨Int.emod_nonneg _ (by omega), ?_⟩
  by_cases h : a + 1 < M
  · rw [Int.emod_eq_of_lt (by omega) h]; omega
  · have : a + 1 = M := by omega
    rw [this, Int.emod_self]; omega

/-- In one full rotation from index `i`, every voice index occurs exactly once. -/
theorem rotation_count_eq_one (N i v : Int) (hv0 : 0 ≤ v) (hv : v < N) :
    ((List.range N.toNat).map (fun k : Nat => (i + (k : Int)) % N)).count v = 1 := by
  have hNpos : 0 < N := by omega
  apply List.count_eq_one_of_mem
  · apply List.Nodup.map_on _ (List.nodup_range _)
    intro x hx y hy hxy
    rw [List.mem_range] at hx hy
    have hd : N ∣ ((x : Int) - (y : Int)) := by
      have h2 : (i + (x : Int) - (i + (y : Int))) % N = 0 :=
        Int.emod_eq_emod_iff_emod_sub_eq_zero.mp hxy
      have h3 : (i + (x : Int) - (i + (y : Int))) = (x : Int) - (y : Int) := by ring
      rw [h3] at h2
      exact Int.dvd_of_emod_eq_zero h2
    have habs : |(x : Int) - (y : Int)| < N := by
      rw [abs_lt]; constructor <;> omega
    have := Int.eq_zero_of_abs_lt_dvd hd habs
    omega
  · rw [List.mem_map]
    refine ⟨((v - i) % N).toNat, ?_, ?_⟩
    · rw [List.mem_range]
      have h1 := Int.emod_nonneg (v - i) (ne_of_gt hNpos)
      have h2 := Int.emod_lt_of_pos (v - i) hNpos
      omega
    · have h1 := Int.emod_nonneg (v - i) (ne_of_gt hNpos)
      simp only [Int.toNat_of_nonneg h1, Int.add_emod_emod]
      have : i + (v - i) = v := by ring
      rw [this]
      exact Int.emod_eq_of_lt hv0 hv

/-! ## Claims -/

/-- C1: for every `VOICE_COUNT >= 1` and every start index in range, any run of
`AdvanceSequencer` invocations succeeds and leaves `current_voice` equal to
(initial index + number of invocations on which the clock ticked) mod
`VOICE_COUNT`, which lies in `[0, VOICE_COUNT)`; an invocation on which the
clock does not tick leaves `current_voice` unchanged. -/
theorem C1_current_voice_rotation (P : Dsp F O E V C B) (cfg : Config)
    (s : State F O E V C B) (n : Nat)
    (hN1 : 1 ≤ cfg.VOICE_COUNT) (hN : cfg.VOICE_COUNT ≤ INT_MAX) (hs : SeqOK cfg s) :
    (∃ t, runSequencer P cfg n s = some t ∧
      t.current_voice
        = (s.current_voice + (fireCount P n s.clock : Int)) % cfg.VOICE_COUNT ∧
      0 ≤ t.current_voice ∧ t.current_voice < cfg.VOICE_COUNT) ∧
    (∀ r : State F O E V C B, (P.metroProcess r.clock).2 = false →
      ∃ u, AdvanceSequencer P cfg r = some u ∧ u.current_voice = r.current_voice) := by
  constructor
  · obtain ⟨t, ht, htok, hcv, -⟩ := runSequencer_spec P cfg hN1 hN n s hs
    exact ⟨t, ht, hcv, htok.1, htok.2.1⟩
  · intro r hr
    exact ⟨_, AdvanceSequencer_idle P cfg r hr, rfl⟩

/-- C1 at the shipped constants: eight voices, five invocations of which the
first, third and fourth tick. -/
theorem C1_current_voice_rotation_witness :
    (1 ≤ shipped.VOICE_COUNT ∧ shipped.VOICE_COUNT ≤ INT_MAX ∧
      SeqOK shipped (simState 8 1 [true, false, true, true, false])) ∧
    (∃ t, runSequencer simDsp shipped 5 (simState 8 1 [true, false, true, true, false])
        = some t ∧
      t.current_voice
        = ((simState 8 1 [true, false, true, true, false]).current_voice
            + (fireCount simDsp 5
                (simState 8 1 [true, false, true, true, false]).clock : Int))
          % shipped.VOICE_COUNT ∧
      0 ≤ t.current_voice ∧ t.current_voice < shipped.VOICE_COUNT) :=
  ⟨⟨by decide, by decide, by decide⟩,
   (C1_current_voice_rotation simDsp shipped
      (simState 8 1 [true, false, true, true, false]) 5
      (by decide) (by decide) (by decide)).1⟩

/-- C2: an invocation of `AdvanceSequencer` on which the clock ticks resets the
oscillator and triggers both envelopes of the voice at the pre-tick
`current_voice` and leaves every other voice's oscillator and envelopes as they
were; an invocation without a tick touches none.  Hence in any run with
exactly `VOICE_COUNT` ticks the triggered voices are `i, i+1, ..., i+N-1` mod
`N` in this order, every voice occurring exactly once, and `current_voice` is
back at `i`; for `N = 8`, `i = 0` the list is `[0, ..., 7]`. -/
theorem C2_one_voice_per_fire (P : Dsp F O E V C B) (cfg : Config)
    (s : State F O E V C B)
    (hN1 : 1 ≤ cfg.VOICE_COUNT) (hN : cfg.VOICE_COUNT ≤ INT_MAX) (hs : SeqOK cfg s) :
    ((P.metroProcess s.clock).2 = true →
      firedVoice P s = some s.current_voice ∧
      ∃ o e p t, s.osc[s.current_voice.toNat]? = some o ∧
        s.env[s.current_voice.toNat]? = some e ∧
        s.pitch_env[s.current_voice.toNat]? = some p ∧
        AdvanceSequencer P cfg s = some t ∧
        t.osc = s.osc.set s.current_voice.toNat (P.oscReset o) ∧
        t.env = s.env.set s.current_voice.toNat (P.envTrigger e) ∧
        t.pitch_env = s.pitch_env.set s.current_voice.toNat (P.envTrigger p) ∧
        ∀ j : Nat, j ≠ s.current_voice.toNat →
          t.osc[j]? = s.osc[j]? ∧ t.env[j]? = s.env[j]? ∧
          t.pitch_env[j]? = s.pitch_env[j]?) ∧
    ((P.metroProcess s.clock).2 = false →
      firedVoice P s = none ∧
      ∃ t, AdvanceSequencer P cfg s = some t ∧
        t.osc = s.osc ∧ t.env = s.env ∧ t.pitch_env = s.pitch_env) ∧
    (∀ n, fireCount P n s.clock = cfg.VOICE_COUNT.toNat →
      triggeredVoices P cfg n s
        = some ((List.range cfg.VOICE_COUNT.toNat).map
            (fun k : Nat => (s.current_voice + (k : Int)) % cfg.VOICE_COUNT)) ∧
      (∀ v : Int, 0 ≤ v → v < cfg.VOICE_COUNT →
        ((List.range cfg.VOICE_COUNT.toNat).map
            (fun k : Nat => (s.current_voice + (k : Int)) % cfg.VOICE_COUNT)).count v = 1) ∧
      ∃ t, runSequencer P cfg n s = some t ∧ t.current_voice = s.current_voice) ∧
    (cfg.VOICE_COUNT = 8 → s.current_voice = 0 →
      ∀ n, fireCount P n s.clock = 8 →
        triggeredVoices P cfg n s = some [0, 1, 2, 3, 4, 5, 6, 7] ∧
        ∃ t, runSequencer P cfg n s = some t ∧ t.current_voice = 0) := by
  refine ⟨?_, ?_, ?_, ?_⟩
  · intro hf
    obtain ⟨ho, he, hp, h⟩ := AdvanceSequencer_fire P cfg s hN hs hf
    refine ⟨by simp [firedVoice, hf], _, _, _, _, List.getElem?_eq_getElem ho,
      List.getElem?_eq_getElem he, List.getElem?_eq_getElem hp, h, rfl, rfl, rfl, ?_⟩
    intro j hj
    simp [List.getElem?_set_ne (Ne.symm hj)]
  · intro hf
    exact ⟨by simp [firedVoice, hf], _, AdvanceSequencer_idle P cfg s hf, rfl, rfl, rfl⟩
  · intro n hn
    obtain ⟨t, ht, htok, hcv, hlog⟩ := runSequencer_spec P cfg hN1 hN n s hs
    refine ⟨by rw [hlog, hn], fun v hv0 hv => rotation_count_eq_one _ _ v hv0 hv, t, ht, ?_⟩
    rw [hcv, hn, Int.toNat_of_nonneg (by omega), Int.add_emod_self]
    exact Int.emod_eq_of_lt hs.1 hs.2.1
  · intro h8 h0 n hn
    obtain ⟨t, ht, htok, hcv, hlog⟩ := runSequencer_spec P cfg hN1 hN n s hs
    refine ⟨?_, t, ht, ?_⟩
    · rw [hlog, hn, h8, h0]; rfl
    · rw [hcv, hn, h8, h0]; rfl

/-- C2 at the shipped constants: eight voices, a clock that ticks on each of
eight invocations; the voices triggered are `0, ..., 7` in this order. -/
theorem C2_one_voice_per_fire_witness :
    (1 ≤ shipped.VOICE_COUNT ∧ shipped.VOICE_COUNT ≤ INT_MAX ∧
      SeqOK shipped (simState 8 1 (List.replicate 8 true))) ∧
    triggeredVoices simDsp shipped 8 (simState 8 1 (List.replicate 8 true))
      = some [0, 1, 2, 3, 4, 5, 6, 7] ∧
    ∃ t, runSequencer simDsp shipped 8 (simState 8 1 (List.replicate 8 true)) = some t ∧
      t.current_voice = 0 :=
  ⟨⟨by decide, by decide, by decide⟩,
   (C2_one_voice_per_fire simDsp shipped (simState 8 1 (List.replicate 8 true))
      (by decide) (by decide) (by decide)).2.2.2 rfl rfl 8 (by decide)⟩

/-- C3: with `MIXER_CHANNEL = M >= 1`, any run of callbacks (whatever the two
rising-edge values are in each) returns and keeps `0 <= current_mx < M`, and
`current_mx = 0` when `M = 1`; each callback updates `current_mx` by
`selectorUpdate`, which stays in range for all edge values, maps `a` to
`(a + 1) mod M` on a forward edge alone (so `M - 1` to `0`), maps `a > 0` to
`a - 1` on a backward edge alone and leaves `0` unchanged. -/
theorem C3_selector_in_range (P : Dsp F O E V C B) (cfg : Config)
    (s : State F O E V C B) (inps : List (CallbackIn F)) (hcfg : cfg.Valid)
    (hs : StateOK cfg s) (hin : ∀ i ∈ inps, InOK i) :
    (∃ t, runCallbacks P cfg inps s = some t ∧
      0 ≤ t.current_mx ∧ t.current_mx < cfg.MIXER_CHANNEL ∧
      (cfg.MIXER_CHANNEL = 1 → t.current_mx = 0)) ∧
    (∀ inp, InOK inp → ∃ r, AudioCallback P cfg s inp = some r ∧
      r.1.current_mx = selectorUpdate cfg s.current_mx
        (forwardEdge P s inp) (backwardEdge P s inp)) ∧
    (∀ a : Int, 0 ≤ a → a < cfg.MIXER_CHANNEL →
      (∀ fwd bwd, 0 ≤ selectorUpdate cfg a fwd bwd ∧
        selectorUpdate cfg a fwd bwd < cfg.MIXER_CHANNEL) ∧
      selectorUpdate cfg a true false = (a + 1) % cfg.MIXER_CHANNEL ∧
      (a = cfg.MIXER_CHANNEL - 1 → selectorUpdate cfg a true false = 0) ∧
      (0 < a → selectorUpdate cfg a false true = a - 1) ∧
      (a = 0 → selectorUpdate cfg a false true = 0) ∧
      selectorUpdate cfg a false false = a) := by
  obtain ⟨hN1, hN, hM1, hM, hK1, hK⟩ := hcfg
  have hcfg : cfg.Valid := ⟨hN1, hN, hM1, hM, hK1, hK⟩
  refine ⟨?_, ?_, ?_⟩
  · obtain ⟨t, ht, htOK, -⟩ := runCallbacks_ok P cfg hcfg inps s hs hin
    refine ⟨t, ht, htOK.2.1.1, htOK.2.1.2.1, ?_⟩
    intro h1
    have := htOK.2.1.1
    have := htOK.2.1.2.1
    omega
  · intro inp hinp
    obtain ⟨r, hr, -, -, hmx, -⟩ := AudioCallback_spec P cfg s inp hcfg hs hinp
    exact ⟨r, hr, hmx⟩
  · intro a h0 h1
    have hf := selectorUpdate_forward cfg a h0 h1 hM false
    simp only [Bool.and_false, Bool.false_eq_true, if_false] at hf
    refine ⟨fun fwd bwd => selectorUpdate_range cfg a fwd bwd h0 h1 hM, hf, ?_, ?_, ?_, ?_⟩
    · intro ha
      rw [hf, ha]
      simp
    · intro hpos
      unfold selectorUpdate
      simp only [Bool.false_eq_true, if_false, Bool.and_true, decide_eq_true_eq]
      rw [if_pos hpos]
      apply wrapInt_of_range
      · omega
      · unfold INT_MAX at *; omega
    · intro ha
      subst ha
      unfold selectorUpdate
      simp
    · unfold selectorUpdate
      simp

/-- C3 on a two-stage configuration, both buttons held down for two callbacks
from `pagingState`: the first callback sees a forward edge alone and moves the
selector from `0` to `1`, the second sees a backward edge alone and moves it
back to `0`. -/
theorem C3_selector_in_range_witness :
    (twoStage.Valid ∧ StateOK twoStage pagingState ∧
      ∀ i ∈ [simIn 1 1000 true true 2, simIn 1 1000 true true 2], InOK i) ∧
    (forwardEdge simDsp pagingState (simIn 1 1000 true true 2) = true ∧
      backwardEdge simDsp pagingState (simIn 1 1000 true true 2) = false) ∧
    (runCallbacks simDsp twoStage [simIn 1 1000 true true 2] pagingState).map
      (fun t => (t.current_mx, forwardEdge simDsp t (simIn 1 1000 true true 2),
        backwardEdge simDsp t (simIn 1 1000 true true 2))) = some (1, false, true) ∧
    (runCallbacks simDsp twoStage
        [simIn 1 1000 true true 2, simIn 1 1000 true true 2] pagingState).map
      (fun t => t.current_mx) = some 0 ∧
    (∃ t, runCallbacks simDsp twoStage
        [simIn 1 1000 true true 2, simIn 1 1000 true true 2] pagingState = some t ∧
      0 ≤ t.current_mx ∧ t.current_mx < twoStage.MIXER_CHANNEL ∧
      (twoStage.MIXER_CHANNEL = 1 → t.current_mx = 0)) ∧
    (∃ r, AudioCallback simDsp twoStage pagingState (simIn 1 1000 true true 2) = some r ∧
      r.1.current_mx = selectorUpdate twoStage pagingState.current_mx
        (forwardEdge simDsp pagingState (simIn 1 1000 true true 2))
        (backwardEdge simDsp pagingState (simIn 1 1000 true true 2))) :=
  ⟨⟨by decide, by decide, by decide⟩, ⟨by decide, by decide⟩, by decide!, by decide!,
   (C3_selector_in_range simDsp twoStage pagingState
      [simIn 1 1000 true true 2, simIn 1 1000 true true 2]
      (by decide) (by decide) (by decide)).1,
   (C3_selector_in_range simDsp twoStage pagingState
      [simIn 1 1000 true true 2, simIn 1 1000 true true 2]
      (by decide) (by decide) (by decide)).2.1 (simIn 1 1000 true true 2) (by decide)⟩

/-- C4: `UpdateMixerParameters` run with `current_mx = i` in range returns and
leaves the stored gain, high-band amp, mid-band amp, mid-band frequency and
low-band amp of every stage `j ≠ i` as they were, and leaves `current_mx` and
`current_voice` unchanged; the same holds after any number of repeated runs on
the same parameter values. -/
theorem C4_other_stages_untouched (P : Dsp F O E V C B) (cfg : Config)
    (s : State F O E V C B) (n : Nat) (hs : MixOK cfg s) :
    (∃ t, UpdateMixerParameters P s = some t ∧
      (∀ j, j ≠ s.current_mx.toNat → stageVals t j = stageVals s j) ∧
      t.current_mx = s.current_mx ∧ t.current_voice = s.current_voice) ∧
    (∃ t, repeatUpdateMixer P n s = some t ∧
      (∀ j, j ≠ s.current_mx.toNat → stageVals t j = stageVals s j) ∧
      t.current_mx = s.current_mx ∧ t.current_voice = s.current_voice ∧
      t.params = s.params) := by
  constructor
  · obtain ⟨t, ht, -, htv, -, e1, e2, -⟩ := UpdateMixerParameters_ok P cfg s hs
    exact ⟨t, ht, fun j hj => stageVals_written_ne P s t _ _ htv j hj, e1, e2⟩
  · obtain ⟨t, ht, -, e1, e2, e3, e4⟩ := repeatUpdateMixer_ok P cfg n s hs
    exact ⟨t, ht, e4, e1, e2, e3⟩

/-- C4 on a two-stage configuration with stage 1 selected: stage 0 keeps its
initial values through one and through five runs. -/
theorem C4_other_stages_untouched_witness :
    MixOK twoStage secondSelected ∧
    (∃ t, UpdateMixerParameters simDsp secondSelected = some t ∧
      (∀ j, j ≠ secondSelected.current_mx.toNat →
        stageVals t j = stageVals secondSelected j) ∧
      t.current_mx = 1 ∧ t.current_voice = 0) :=
  ⟨by decide,
   (C4_other_stages_untouched simDsp twoStage secondSelected 5
      (by decide)).1⟩

/-- C5 (the code against the claim): with the parameter bank holding mixer
gain `1/2` and mid frequency `881/2`, both inside their mapped ranges,
`UpdateMixerParameters` stores gain `0` and mid frequency `440` in the selected
stage: the `int` arrays receive the truncated values, which differ from the
bank's. -/
theorem C5_stored_values_truncated :
    (UpdateMixerParameters simDsp halfGainState).map
      (fun t => (t.mx_gain_val, t.mx_m_freq_val)) = some ([0], [440]) ∧
    simDsp.ofInt 0 ≠ halfGainState.params.mx_gain ∧
    simDsp.ofInt 440 ≠ halfGainState.params.mx_m_freq := by
  refine ⟨by decide!, ?_, ?_⟩
  · simp only [simDsp, halfGainState, simParams]; norm_num
  · simp only [simDsp, halfGainState, simParams]; norm_num

/-- C7 (the code against the claim): a callback with `size = 4` (two frames),
eight voices of which voice 0 has just been triggered.  In frame 0 `Mixer`
receives the voice sum `1` and the frame outputs `3/4`; in frame 1 the voice
sum is `1/2` but `Mixer` receives `5/4 = 3/4 + 1/2`, the previous frame's
output being still in `sig`. -/
theorem C7_second_frame_keeps_previous_output :
    mixerInputAt simDsp shipped (simState 8 1 [true]) (simIn 1 1000 false false 4) 0
      = some 1 ∧
    voiceSumAt simDsp shipped (simState 8 1 [true]) (simIn 1 1000 false false 4) 0
      = some 1 ∧
    frameOutputAt simDsp shipped (simState 8 1 [true]) (simIn 1 1000 false false 4) 0
      = some (3 / 4) ∧
    voiceSumAt simDsp shipped (simState 8 1 [true]) (simIn 1 1000 false false 4) 1
      = some (1 / 2) ∧
    mixerInputAt simDsp shipped (simState 8 1 [true]) (simIn 1 1000 false false 4) 1
      = some (5 / 4) ∧
    (AudioCallback simDsp shipped (simState 8 1 [true]) (simIn 1 1000 false false 4)).map
      (fun r => r.2) = some [3 / 4, 3 / 4, 15 / 19, 15 / 19] := by
  refine ⟨by decide!, by decide!, by decide!, by decide!, by decide!, by decide!⟩

/-- C8: `Mixer` returns, and it is the chain of stages `0, ..., M-1` in
ascending order, stage `i+1` receiving stage `i`'s output; its result `sig` is
the chain's output, the filters of the `M` stages are the chain's, and nothing
else in the state changes.  One iteration at stage `i` multiplies the input by
the stored gain, feeds that same sample to the stage's high, mid and low
filters (the mid filter's frequency set first to the stored mid frequency),
outputs `tanh(h_amp*band_high + m_amp*band_mid + l_amp*band_low)` and writes
only index `i` of the three filter arrays. -/
theorem C8_mixer_is_stage_chain (P : Dsp F O E V C B) (cfg : Config)
    (s : State F O E V C B) (x : F) (hs : MixOK cfg s) :
    (∃ stages h m lo, stagesOf s cfg.MIXER_CHANNEL.toNat = some stages ∧
      stages.length = cfg.MIXER_CHANNEL.toNat ∧
      Mixer P cfg s x = some (withFilters s h m lo, (chainSpec P stages x).2) ∧
      stagesOf (withFilters s h m lo) cfg.MIXER_CHANNEL.toNat
        = some (chainSpec P stages x).1 ∧
      ∀ i, cfg.MIXER_CHANNEL.toNat ≤ i →
        h[i]? = s.mx_h[i]? ∧ m[i]? = s.mx_m[i]? ∧ lo[i]? = s.mx_l[i]?) ∧
    (∀ (u : State F O E V C B) (z : F) (i : Nat) (st : Stage V),
      stageAt u i = some st →
      ∃ t, MixerBody P (u, z) i
          = some (t,
              P.tanh (P.fadd
                (P.fadd
                  (P.fmul (P.ofInt st.high_amp)
                    (P.svfBand (P.svfProcess st.high (P.fmul z (P.ofInt st.gain)))))
                  (P.fmul (P.ofInt st.mid_amp)
                    (P.svfBand (P.svfProcess (P.svfSetFreq st.mid (P.ofInt st.mid_freq))
                      (P.fmul z (P.ofInt st.gain))))))
                (P.fmul (P.ofInt st.low_amp)
                  (P.svfBand (P.svfProcess st.low (P.fmul z (P.ofInt st.gain))))))) ∧
        t = withFilters u
          (u.mx_h.set i (P.svfProcess st.high (P.fmul z (P.ofInt st.gain))))
          (u.mx_m.set i (P.svfProcess (P.svfSetFreq st.mid (P.ofInt st.mid_freq))
            (P.fmul z (P.ofInt st.gain))))
          (u.mx_l.set i (P.svfProcess st.low (P.fmul z (P.ofInt st.gain)))) ∧
        ∀ j, j ≠ i →
          t.mx_h[j]? = u.mx_h[j]? ∧ t.mx_m[j]? = u.mx_m[j]? ∧ t.mx_l[j]? = u.mx_l[j]?) := by
  constructor
  · obtain ⟨-, -, hh, hm, hl, e1, e2, e3, e4, e5⟩ := hs
    obtain ⟨l, h, m, lo, hl', hrun, hst, -, -, -, hrest⟩ :=
      Mixer_loop_chain P s x cfg.MIXER_CHANNEL.toNat (by omega) (by omega) (by omega)
        (by omega) (by omega) hh hm hl
    exact ⟨l, h, m, lo, hl', stagesOf_length s _ l hl', hrun, hst, hrest⟩
  · intro u z i st hst
    refine ⟨_, MixerBody_eq P (u, z) i st hst, rfl, ?_⟩
    intro j hj
    simp only [withFilters, stageSpec, List.getElem?_set_ne (Ne.symm hj), and_self]

/-- C8 on a two-stage configuration: the mixer on input `1`. -/
theorem C8_mixer_is_stage_chain_witness :
    MixOK twoStage (simState 8 2 []) ∧
    ∃ stages h m lo, stagesOf (simState 8 2 []) twoStage.MIXER_CHANNEL.toNat = some stages ∧
      stages.length = twoStage.MIXER_CHANNEL.toNat ∧
      Mixer simDsp twoStage (simState 8 2 []) 1
        = some (withFilters (simState 8 2 []) h m lo, (chainSpec simDsp stages 1).2) ∧
      stagesOf (withFilters (simState 8 2 []) h m lo) twoStage.MIXER_CHANNEL.toNat
        = some (chainSpec simDsp stages 1).1 ∧
      ∀ i, twoStage.MIXER_CHANNEL.toNat ≤ i →
        h[i]? = (simState 8 2 []).mx_h[i]? ∧ m[i]? = (simState 8 2 []).mx_m[i]? ∧
        lo[i]? = (simState 8 2 []).mx_l[i]? :=
  ⟨by decide, (C8_mixer_is_stage_chain simDsp twoStage (simState 8 2 []) 1 (by decide)).1⟩

/-- C9: with `UPDATE_RATE = K >= 1` and `update_step = 0` initially, the run up
to callback number `n` returns with `update_step = n mod K`, which is in
`[0, K)`; callback `n` returns, and it runs the control tick (then the rest of
the callback) when `n mod K = 0` and only the rest of the callback otherwise,
the parameter values and the selected stage's stored values being refreshed in
the first case and kept in the second; for `K = 1` the tick runs in every
callback. -/
theorem C9_tick_every_K_callbacks (P : Dsp F O E V C B) (cfg : Config)
    (s : State F O E V C B) (inps : List (CallbackIn F)) (inp : CallbackIn F)
    (hcfg : cfg.Valid) (hs : StateOK cfg s) (h0 : s.update_step = 0)
    (hin : ∀ i ∈ inps, InOK i) (hinp : InOK inp) :
    ∃ t, runCallbacks P cfg inps s = some t ∧
      t.update_step = (inps.length : Int) % cfg.UPDATE_RATE ∧
      0 ≤ t.update_step ∧ t.update_step < cfg.UPDATE_RATE ∧
      ((logStep t).update_step = 0 ↔ (inps.length : Int) % cfg.UPDATE_RATE = 0) ∧
      AudioCallback P cfg t inp
        = (if (inps.length : Int) % cfg.UPDATE_RATE = 0
           then (controlTick P (logStep t) inp).bind (fun u => afterTick P cfg u inp)
           else afterTick P cfg (logStep t) inp) ∧
      (∃ r, AudioCallback P cfg t inp = some r ∧
        r.1.params = (if (inps.length : Int) % cfg.UPDATE_RATE = 0
          then inp.fresh else t.params) ∧
        vals r.1 = (if (inps.length : Int) % cfg.UPDATE_RATE = 0
          then writtenVals P t t.current_mx.toNat inp.fresh else vals t) ∧
        0 ≤ r.1.update_step ∧ r.1.update_step < cfg.UPDATE_RATE) ∧
      (cfg.UPDATE_RATE = 1 →
        AudioCallback P cfg t inp
          = (controlTick P (logStep t) inp).bind (fun u => afterTick P cfg u inp)) := by
  obtain ⟨t, ht, htOK, hstep⟩ := runCallbacks_ok P cfg hcfg inps s hs hin
  rw [h0, zero_add] at hstep
  have hlog : (logStep t).update_step = t.update_step := by rw [logStep_eq]
  have hdec : AudioCallback P cfg t inp
      = (if (inps.length : Int) % cfg.UPDATE_RATE = 0
         then (controlTick P (logStep t) inp).bind (fun u => afterTick P cfg u inp)
         else afterTick P cfg (logStep t) inp) := by
    unfold AudioCallback
    simp only [Option.bind_eq_bind, Option.pure_def, hlog, hstep]
    split <;> rfl
  obtain ⟨r, hr, hrOK, -, -, hv, hp, -⟩ := AudioCallback_spec P cfg t inp hcfg htOK hinp
  rw [hstep] at hv hp
  refine ⟨t, ht, hstep, htOK.2.2.1, htOK.2.2.2, by rw [hlog, hstep], hdec,
    ⟨r, hr, hp, hv, hrOK.2.2.1, hrOK.2.2.2⟩, ?_⟩
  intro hK
  rw [hdec, hK, if_pos (Int.emod_one _)]

/-- C9 with a tick every third callback: the state before callback number 4. -/
theorem C9_tick_every_K_callbacks_witness :
    (everyThird.Valid ∧ StateOK everyThird (simState 8 1 []) ∧
      (simState 8 1 []).update_step = 0 ∧
      (∀ i ∈ List.replicate 4 (simIn 1 1000 false false 2), InOK i) ∧
      InOK (simIn 2 500 false false 2)) ∧
    ∃ t, runCallbacks simDsp everyThird (List.replicate 4 (simIn 1 1000 false false 2))
        (simState 8 1 []) = some t ∧
      t.update_step
        = ((List.replicate 4 (simIn 1 1000 false false 2)).length : Int)
          % everyThird.UPDATE_RATE ∧
      0 ≤ t.update_step ∧ t.update_step < everyThird.UPDATE_RATE :=
  ⟨⟨by decide, by decide, by decide, by decide, by decide⟩,
   (C9_tick_every_K_callbacks simDsp everyThird (simState 8 1 [])
      (List.replicate 4 (simIn 1 1000 false false 2)) (simIn 2 500 false false 2)
      (by decide) (by decide) (by decide) (by decide) (by decide)).imp
     (fun _ h => ⟨h.1, h.2.1, h.2.2.1, h.2.2.2.1⟩)⟩

/-- C10 as stated fails: two stages, selector at `0`, a callback that runs the
control tick and sees a forward edge, fresh gain `3` and mid frequency `500`.
Stage `0`, the stage selected before the edge, is the one overwritten, and
stage `1 = (0 + 1) mod 2` keeps its initial values; the selector is `1` only
afterwards. -/
theorem C10_counterexample :
    edgeState.update_step = 0 ∧
    edgeState.current_mx = 0 ∧
    forwardEdge simDsp edgeState (simIn 3 500 true false 2)
      = true ∧
    stageVals edgeState 0
      = (some 1, some 1, some 1, some 1000, some 1) ∧
    stageVals edgeState 1
      = (some 1, some 1, some 1, some 1000, some 1) ∧
    (AudioCallback simDsp twoStage edgeState (simIn 3 500 true false 2)).map
      (fun r => stageVals r.1 0) = some (some 3, some 1, some 1, some 500, some 1) ∧
    (AudioCallback simDsp twoStage edgeState (simIn 3 500 true false 2)).map
      (fun r => stageVals r.1 1) = some (some 1, some 1, some 1, some 1000, some 1) ∧
    (AudioCallback simDsp twoStage edgeState (simIn 3 500 true false 2)).map
      (fun r => r.1.current_mx) = some 1 := by
  refine ⟨by decide, by decide, by decide, by decide, by decide, by decide!, by decide!,
    by decide!⟩

/-- C10 amended: for `MIXER_CHANNEL = M >= 2`, a callback that runs the control
tick and sees a forward edge with selector value `a` beforehand returns; the
stage it overwrites with the values assigned from the parameter bank is stage
`a`, the stage selected before the edge is applied; every other stage, in
particular stage `(a + 1) mod M`, keeps its stored values; the edge is applied
to the selector after the copy, so that (without a backward edge) the selector
is `(a + 1) mod M` when the callback returns. -/
theorem C10_tick_writes_stage_selected_before_edge (P : Dsp F O E V C B)
    (cfg : Config) (s : State F O E V C B) (inp : CallbackIn F)
    (hcfg : cfg.Valid) (hM : 2 ≤ cfg.MIXER_CHANNEL) (hs : StateOK cfg s)
    (hin : InOK inp) (htick : s.update_step = 0)
    (hfwd : forwardEdge P s inp = true) :
    ∃ r, AudioCallback P cfg s inp = some r ∧
      stageVals r.1 s.current_mx.toNat
        = (some (P.toInt inp.fresh.mx_gain), some (P.toInt inp.fresh.mx_h_amp),
           some (P.toInt inp.fresh.mx_m_amp), some (P.toInt inp.fresh.mx_m_freq),
           some (P.toInt inp.fresh.mx_l_amp)) ∧
      (∀ j, j ≠ s.current_mx.toNat → stageVals r.1 j = stageVals s j) ∧
      ((s.current_mx + 1) % cfg.MIXER_CHANNEL).toNat ≠ s.current_mx.toNat ∧
      stageVals r.1 ((s.current_mx + 1) % cfg.MIXER_CHANNEL).toNat
        = stageVals s ((s.current_mx + 1) % cfg.MIXER_CHANNEL).toNat ∧
      r.1.current_mx = selectorUpdate cfg s.current_mx true (backwardEdge P s inp) ∧
      (backwardEdge P s inp = false →
        r.1.current_mx = (s.current_mx + 1) % cfg.MIXER_CHANNEL) := by
  obtain ⟨r, hr, -, -, hmx, hv, -⟩ := AudioCallback_spec P cfg s inp hcfg hs hin
  rw [if_pos htick] at hv
  rw [hfwd] at hmx
  obtain ⟨-, ⟨m0, m1, -, -, -, e1, e2, e3, e4, e5⟩, -⟩ := hs
  have hne := succ_emod_ne_self s.current_mx cfg.MIXER_CHANNEL m0 m1 hM
  have hne' : ((s.current_mx + 1) % cfg.MIXER_CHANNEL).toNat ≠ s.current_mx.toNat := by
    have := hne.1
    have := hne.2
    omega
  refine ⟨r, hr, ?_, fun j hj => stageVals_written_ne P s r.1 _ _ hv j hj, hne',
    stageVals_written_ne P s r.1 _ _ hv _ hne', hmx, ?_⟩
  · exact stageVals_written_self P s r.1 _ _ hv (by omega) (by omega) (by omega)
      (by omega) (by omega)
  · intro hb
    rw [hmx, hb, selectorUpdate_forward cfg _ m0 m1 hcfg.2.2.2.1 false]
    simp

/-- C10 amended, on two stages with the selector at `0` and button 2 about to
show its rising edge. -/
theorem C10_tick_writes_stage_selected_before_edge_witness :
    (twoStage.Valid ∧ 2 ≤ twoStage.MIXER_CHANNEL ∧
      StateOK twoStage edgeState ∧
      InOK (simIn 3 500 true false 2) ∧
      edgeState.update_step = 0 ∧
      forwardEdge simDsp edgeState (simIn 3 500 true false 2)
        = true) ∧
    ∃ r, AudioCallback simDsp twoStage edgeState
        (simIn 3 500 true false 2) = some r ∧
      stageVals r.1 0
        = (some (simDsp.toInt 3), some (simDsp.toInt 1), some (simDsp.toInt 1),
           some (simDsp.toInt 500), some (simDsp.toInt 1)) ∧
      stageVals r.1 1
        = stageVals edgeState 1 :=
  ⟨⟨by decide, by decide, by decide, by decide, by decide, by decide⟩,
   (C10_tick_writes_stage_selected_before_edge simDsp twoStage
      edgeState (simIn 3 500 true false 2)
      (by decide) (by decide) (by decide) (by decide) (by decide) (by decide)).imp
     (fun _ h => ⟨h.1, h.2.1, h.2.2.2.2.1⟩)⟩

end Kick
